import Mathlib

/-!
A verification development for a VPC-provisioning service consisting of an
intake handler (`api_handler.py`) and an asynchronous provisioning worker
(`lambda/worker_handler.py`).  The Python source is shallowly embedded:

* the DynamoDB table is an association list from key strings to records
  (`Store`); `put_item` is modelled by consing, so that the most recent
  write shadows older ones, and the conditional put used for the
  idempotency lock is modelled by a lookup followed by a put;
* the EC2 client is an oracle (`Ec2`) of pure functions returning
  `Except String _`; a `.error` models a raised `ClientError`;
* wall-clock timestamps are a logical clock (`Nat`) threaded through the
  state; the readiness poll's wall-clock timeout is a fuel parameter;
* every external call and every table update is logged in a trace, so that
  ordering and frame properties can be stated.
-/

namespace VpcDemo

/-! ## IPv4 networks, modelling Python's `ipaddress` as used by the code

`ipaddress.ip_network(s, strict=True)` is modelled for IPv4 strings in
dotted-quad form with an optional `/prefixlen` part — the only form the
service's own records and examples use.  IPv6 strings and dotted-decimal
netmask/hostmask forms are outside the modelled domain and are treated as
parse failures. -/

structure Ipv4Net where
  addr : Nat
  prefixLen : Nat
deriving DecidableEq, Repr

/-- Split a character list at every occurrence of `sep` (the separator is
dropped; adjacent separators yield empty pieces, like `str.split`). -/
def splitOnChar (sep : Char) : List Char → List (List Char)
  | [] => [[]]
  | c :: cs =>
    let r := splitOnChar sep cs
    if c = sep then [] :: r
    else
      match r with
      | [] => [[c]]
      | g :: gs => (c :: g) :: gs

/-- The value of a decimal digit string (digit-ness checked separately). -/
def decVal (cs : List Char) : Nat :=
  cs.foldl (fun a c => a * 10 + (c.toNat - 48)) 0

/-- Python `_parse_octet`: nonempty, at most 3 characters, decimal digits
only, no leading zero, value at most 255. -/
def parseOctet (cs : List Char) : Option Nat :=
  if cs.length = 0 ∨ cs.length > 3 then none
  else if !cs.all Char.isDigit then none
  else if cs.length > 1 ∧ cs.headD ' ' = '0' then none
  else if decVal cs > 255 then none else some (decVal cs)

/-- Dotted-quad IPv4 address to its 32-bit value. -/
def parseIPv4Addr (s : String) : Option Nat :=
  match splitOnChar '.' s.data with
  | [a, b, c, d] =>
    match parseOctet a, parseOctet b, parseOctet c, parseOctet d with
    | some a, some b, some c, some d => some (((a * 256 + b) * 256 + c) * 256 + d)
    | _, _, _, _ => none
  | _ => none

/-- Python `_prefix_from_prefix_string`: decimal digits only, value at most
the maximum prefix length 32. -/
def parsePrefixLen (cs : List Char) : Option Nat :=
  if cs.length = 0 ∨ !cs.all Char.isDigit then none
  else if decVal cs ≤ 32 then some (decVal cs) else none

/-- `ipaddress.ip_network(s, strict=True)` for IPv4: an address with no `/`
is a /32; with one `/` the host bits must all be zero (`strict`); more than
one `/` is an error. -/
def ip_network (s : String) : Option Ipv4Net :=
  match splitOnChar '/' s.data with
  | [a] => (parseIPv4Addr ⟨a⟩).map (fun v => ⟨v, 32⟩)
  | [a, p] =>
    match parseIPv4Addr ⟨a⟩, parsePrefixLen p with
    | some v, some n => if v % 2 ^ (32 - n) = 0 then some ⟨v, n⟩ else none
    | _, _ => none
  | _ => none

def Ipv4Net.broadcast (n : Ipv4Net) : Nat := n.addr + 2 ^ (32 - n.prefixLen) - 1

/-- `x in net` for a single address. -/
def Ipv4Net.containsAddr (n : Ipv4Net) (x : Nat) : Bool :=
  decide (n.addr ≤ x) && decide (x ≤ n.broadcast)

/-- Python `IPv4Network._is_subnet_of a b`. -/
def subnet_of (a b : Ipv4Net) : Bool :=
  decide (b.addr ≤ a.addr) && decide (a.broadcast ≤ b.broadcast)

/-- Python `IPv4Network.overlaps`. -/
def overlaps (a b : Ipv4Net) : Bool :=
  b.containsAddr a.addr || b.containsAddr a.broadcast ||
    a.containsAddr b.addr || a.containsAddr b.broadcast

/-- Rendering used by Python when an `IPv4Network` is interpolated into an
error message. -/
def netStr (n : Ipv4Net) : String :=
  toString (n.addr / 16777216 % 256) ++ "." ++ toString (n.addr / 65536 % 256) ++ "." ++
    toString (n.addr / 256 % 256) ++ "." ++ toString (n.addr % 256) ++ "/" ++
    toString n.prefixLen

/-! ## The request payload and `_validate_request`

JSON payloads are embedded structurally.  A JSON value that is present but
of the wrong runtime type behaves, under the code's `isinstance` checks,
exactly like an absent one except for the `name` field, where present
non-strings are rejected while absent values pass; the embedding keeps
precisely those distinctions. -/

/-- `s.get("name")` on a subnet object: absent (or JSON null), a string, or
some other JSON value. -/
inductive NameField
  | absent
  | strVal (v : String)
  | nonString
deriving DecidableEq, Repr

/-- A subnet object of the payload; `none` in `cidr`/`az` covers an absent
key and a non-string value (both fail the code's falsy/`isinstance` test
with the same message; the empty string is kept as `some ""`). -/
structure RawSubnet where
  cidr : Option String := none
  az : Option String := none
  name : NameField := .absent
deriving DecidableEq, Repr

/-- An element of the payload's `subnets` array, which need not be an
object. -/
inductive SubnetEntry
  | obj (s : RawSubnet)
  | notObject
deriving DecidableEq, Repr

/-- The payload's `vpc` object. -/
structure RawVpc where
  cidr : Option String := none
deriving DecidableEq, Repr

/-- The request body: `vpc = none` covers a missing `"vpc"` key and a
non-object value; `subnets = none` covers a missing `"subnets"` key and a
non-array value. -/
structure Payload where
  vpc : Option RawVpc := none
  subnets : Option (List SubnetEntry) := none
deriving DecidableEq, Repr

def MAX_SUBNETS : Nat := 10

/-- A validated subnet, as the code stores it on the request record
(`{"cidr": .., "az": .., "name": ..}`), and as the worker later reads it. -/
structure SubnetSpec where
  cidr : String
  az : String
  name : Option String := none
deriving DecidableEq, Repr

/-- The per-subnet loop of `_validate_request` (lines 103-131): `i` is the
enumeration index, `seen` the networks accepted so far, in order. -/
def validateSubnets (vpc_cidr : String) (vpc_net : Ipv4Net) :
    Nat → List Ipv4Net → List SubnetEntry → Except String (List SubnetSpec)
  | _, _, [] => .ok []
  | i, seen, e :: rest =>
    match e with
    | .notObject => .error ("Subnet at index " ++ toString i ++ " must be an object")
    | .obj sub =>
      match sub.cidr with
      | none => .error ("Subnet at index " ++ toString i ++ " missing 'cidr'")
      | some c =>
        if c = "" then .error ("Subnet at index " ++ toString i ++ " missing 'cidr'")
        else
          match sub.az with
          | none => .error ("Subnet at index " ++ toString i ++ " missing 'az'")
          | some a =>
            if a = "" then .error ("Subnet at index " ++ toString i ++ " missing 'az'")
            else if sub.name = .nonString then
              .error ("Subnet at index " ++ toString i ++ " has invalid 'name'")
            else
              match ip_network c with
              | none => .error ("Invalid subnet CIDR '" ++ c ++ "' at index " ++ toString i)
              | some sn =>
                if ¬ subnet_of sn vpc_net then
                  .error ("Subnet CIDR '" ++ c ++ "' is not within VPC CIDR '" ++ vpc_cidr ++ "'")
                else
                  match seen.find? (fun prior => overlaps sn prior) with
                  | some prior =>
                    .error ("Subnet CIDR '" ++ c ++ "' overlaps with '" ++ netStr prior ++ "'")
                  | none =>
                    match validateSubnets vpc_cidr vpc_net (i + 1) (seen ++ [sn]) rest with
                    | .error m => .error m
                    | .ok ps =>
                      .ok (⟨c, a, match sub.name with | .strVal v => some v | _ => none⟩ :: ps)

/-- `_validate_request` (lines 82-133). -/
def validate_request (p : Payload) : Except String (String × List SubnetSpec) :=
  match p.vpc with
  | none => .error "Missing 'vpc' object"
  | some v =>
    match v.cidr with
    | none => .error "Missing 'vpc.cidr'"
    | some vpc_cidr =>
      if vpc_cidr = "" then .error "Missing 'vpc.cidr'"
      else
        match ip_network vpc_cidr with
        | none => .error ("Invalid VPC CIDR '" ++ vpc_cidr ++ "'")
        | some vpc_net =>
          match p.subnets with
          | none => .error "Missing 'subnets' array"
          | some subnets =>
            if subnets.isEmpty then .error "Missing 'subnets' array"
            else if subnets.length > MAX_SUBNETS then
              .error ("Too many subnets: " ++ toString subnets.length ++
                " (max " ++ toString MAX_SUBNETS ++ ")")
            else
              match validateSubnets vpc_cidr vpc_net 0 [] subnets with
              | .error m => .error m
              | .ok parsed => .ok (vpc_cidr, parsed)

/-! ## The DynamoDB table

One table holds both idempotency-lock rows and request rows, keyed by the
`request_id` attribute.  An `Item` has every attribute either system ever
writes, all optional — a DynamoDB item has no schema.  Timestamps
(`created_at`, `updated_at`) are ticks of a logical clock. -/

inductive Status
  | QUEUED
  | IN_PROGRESS
  | CREATED
  | FAILED
deriving DecidableEq, Repr

def Status.str : Status → String
  | .QUEUED => "QUEUED"
  | .IN_PROGRESS => "IN_PROGRESS"
  | .CREATED => "CREATED"
  | .FAILED => "FAILED"

/-- An entry of `result.subnets`. -/
structure CreatedSubnet where
  subnet_id : String
  cidr : String
  az : String
  name : Option String := none
deriving DecidableEq, Repr

/-- The request record's `result` field. -/
structure ResultRec where
  vpc_id : Option String := none
  vpc_cidr : Option String := none
  subnets : List CreatedSubnet := []
deriving DecidableEq, Repr

/-- The request record's `request` field, `{"vpc": {"cidr": ..}, "subnets": ..}`;
`vpc_cidr = none` covers a missing `vpc` object and a `vpc` object without a
`cidr` key (both raise `KeyError('cidr')` in the worker). -/
structure ReqSpec where
  vpc_cidr : Option String := none
  subnets : List SubnetSpec := []
deriving DecidableEq, Repr

structure Item where
  type : Option String := none
  created_by : Option String := none
  idempotency_key : Option String := none
  created_at : Option Nat := none
  updated_at : Option Nat := none
  ttl_epoch : Option Nat := none
  status : Option Status := none
  request : Option ReqSpec := none
  result : Option ResultRec := none
  error_message : Option String := none
  lock_request_id : Option String := none
deriving DecidableEq, Repr

/-- The table, newest write first; `sget` finds the most recent write, so
consing gives `put_item`'s replace semantics. -/
abbrev Store := List (String × Item)

def sget (st : Store) (k : String) : Option Item :=
  (st.find? (fun e => e.1 = k)).map (fun e => e.2)

def sput (st : Store) (k : String) (v : Item) : Store := (k, v) :: st

/-! ## The provisioning worker (`lambda/worker_handler.py`)

The EC2 client is an oracle of pure functions; `.error e` models a raised
`ClientError` whose `str` is `e`.  `describe_vpc_state` additionally takes
the index of the poll within `_wait_vpc_available`, and `poll_fuel` bounds
the poll loop (the wall-clock 30-second timeout).  Every external call and
every `_update_fields` is appended to the trace. -/

structure Ec2 where
  create_vpc : String → Except String String
  create_subnet : String → String → String → Except String String
  create_tags : List String → List (String × String) → Except String Unit
  describe_vpc_state : String → Nat → Except String String
  poll_fuel : Nat

/-- The arguments of one `_update_fields` call: `none` means the field was
not supplied and is left as it is. -/
structure UpdateArgs where
  status : Option Status := none
  result : Option ResultRec := none
  error : Option String := none
deriving DecidableEq, Repr

inductive WEv
  | callCreateVpc (cidr : String)
  | callCreateTags (resources : List String) (tags : List (String × String))
  | callDescribeVpcs (vpc_id : String)
  | callCreateSubnet (vpc_id : String) (cidr : String) (az : String)
  | write (request_id : String) (args : UpdateArgs)
deriving DecidableEq, Repr

structure WState where
  store : Store
  clock : Nat
  trace : List WEv
deriving DecidableEq, Repr

/-- The merged item after one `_update_fields`: `updated_at` is always
stamped, the supplied fields overwrite, the rest stay. -/
def mergeUpdate (it : Item) (a : UpdateArgs) (now : Nat) : Item :=
  { it with
    updated_at := some now
    status := match a.status with | some s => some s | none => it.status
    result := match a.result with | some r => some r | none => it.result
    error_message := match a.error with | some e => some e | none => it.error_message }

/-- `_update_fields` (lines 26-58): an `update_item` with `SET`, which
upserts — on an absent key it creates an item holding just the written
attributes. -/
def update_fields (request_id : String) (a : UpdateArgs) (s : WState) : WState :=
  { store := sput s.store request_id (mergeUpdate ((sget s.store request_id).getD {}) a s.clock)
    clock := s.clock + 1
    trace := s.trace ++ [.write request_id a] }

def logEv (e : WEv) (s : WState) : WState := { s with trace := s.trace ++ [e] }

def FIXED_TAGS : List (String × String) := [("Name", "demo"), ("Project", "demo")]

/-- `_tag` (lines 70-72). -/
def tagCall (ec2 : Ec2) (resource_ids : List String) (request_id : String) (s : WState) :
    Except String Unit × WState :=
  let tags := FIXED_TAGS ++ [("RequestId", request_id)]
  (ec2.create_tags resource_ids tags, logEv (.callCreateTags resource_ids tags) s)

/-- `_wait_vpc_available` (lines 75-82): poll until `available`, a raised
describe error propagates, running out of fuel (the timeout) returns
normally. -/
def wait_vpc_available (ec2 : Ec2) (vpc_id : String) :
    Nat → Nat → WState → Except String Unit × WState
  | 0, _, s => (.ok (), s)
  | fuel + 1, i, s =>
    let s := logEv (.callDescribeVpcs vpc_id) s
    match ec2.describe_vpc_state vpc_id i with
    | .error e => (.error e, s)
    | .ok st => if st = "available" then (.ok (), s)
      else wait_vpc_available ec2 vpc_id fuel (i + 1) s

def subnetKey (c : CreatedSubnet) : String × String := (c.cidr, c.az)

def specKey (sp : SubnetSpec) : String × String := (sp.cidr, sp.az)

/-- The per-subnet loop of `handle_request` (lines 119-145): `created` is
the `created_subnets` list, `keys` the `created_by_key` set (a list with the
same membership), `res` the `current_result` dict. -/
def subnetLoop (ec2 : Ec2) (request_id vpc_id : String) :
    List SubnetSpec → List CreatedSubnet → List (String × String) → ResultRec → WState →
    Except String ResultRec × WState
  | [], _, _, res, s => (.ok res, s)
  | sub :: rest, created, keys, res, s =>
    if (sub.cidr, sub.az) ∈ keys then
      subnetLoop ec2 request_id vpc_id rest created keys res s
    else
      let s := logEv (.callCreateSubnet vpc_id sub.cidr sub.az) s
      match ec2.create_subnet vpc_id sub.cidr sub.az with
      | .error e => (.error e, s)
      | .ok subnet_id =>
        match tagCall ec2 [subnet_id] request_id s with
        | (.error e, s) => (.error e, s)
        | (.ok _, s) =>
          let nameStep : Except String Unit × WState :=
            match sub.name with
            | some n =>
              if n = "" then (.ok (), s)
              else
                (ec2.create_tags [subnet_id] [("SubnetName", n)],
                  logEv (.callCreateTags [subnet_id] [("SubnetName", n)]) s)
            | none => (.ok (), s)
          match nameStep with
          | (.error e, s) => (.error e, s)
          | (.ok _, s) =>
            let created := created ++ [⟨subnet_id, sub.cidr, sub.az, sub.name⟩]
            let keys := keys ++ [(sub.cidr, sub.az)]
            let res := { res with subnets := created }
            let s := update_fields request_id { result := some res } s
            subnetLoop ec2 request_id vpc_id rest created keys res s

/-- `if not vpc_id` on the recovered `result.get("vpc_id")`. -/
def isFalsyStr : Option String → Bool
  | none => true
  | some v => v = ""

/-- Lines 107-118: create the VPC, tag it, poll readiness, then checkpoint
`vpc_id` and `vpc_cidr` into `result` before any subnet is touched.
A missing `cidr` key raises `KeyError('cidr')`, whose `str` is `'cidr'`. -/
def vpcPhase (ec2 : Ec2) (request_id : String) (req : ReqSpec) (res : ResultRec)
    (created : List CreatedSubnet) (s : WState) :
    Except String (String × ResultRec) × WState :=
  match req.vpc_cidr with
  | none => (.error "'cidr'", s)
  | some vpc_cidr =>
    let s := logEv (.callCreateVpc vpc_cidr) s
    match ec2.create_vpc vpc_cidr with
    | .error e => (.error e, s)
    | .ok vpc_id =>
      match tagCall ec2 [vpc_id] request_id s with
      | (.error e, s) => (.error e, s)
      | (.ok _, s) =>
        match wait_vpc_available ec2 vpc_id ec2.poll_fuel 0 s with
        | (.error e, s) => (.error e, s)
        | (.ok _, s) =>
          let res := { res with vpc_id := some vpc_id, vpc_cidr := some vpc_cidr,
                                subnets := created }
          let s := update_fields request_id { result := some res } s
          (.ok (vpc_id, res), s)

/-- The `try` block of `handle_request` (lines 106-147). -/
def tryBody (ec2 : Ec2) (request_id : String) (req : ReqSpec) (vpc_id0 : Option String)
    (current_result : ResultRec) (created : List CreatedSubnet)
    (keys : List (String × String)) (s : WState) : Except String Unit × WState :=
  let phase :=
    if isFalsyStr vpc_id0 then vpcPhase ec2 request_id req current_result created s
    else (.ok (vpc_id0.getD "", current_result), s)
  match phase with
  | (.error e, s) => (.error e, s)
  | (.ok (vpc_id, res), s) =>
    match subnetLoop ec2 request_id vpc_id req.subnets created keys res s with
    | (.error e, s) => (.error e, s)
    | (.ok res, s) =>
      (.ok (), update_fields request_id { status := some .CREATED, result := some res } s)

def terminalStatus : Option Status → Bool
  | some .CREATED => true
  | some .FAILED => true
  | _ => false

/-- `handle_request` (lines 85-151).  The returned `Except` is the call's
outcome: `.error e` models a raised exception reaching the caller. -/
def handle_request (ec2 : Ec2) (request_id : String) (s : WState) :
    Except String Unit × WState :=
  match sget s.store request_id with
  | none => (.error ("request_id not found: " ++ request_id), s)
  | some item =>
    if item.type ≠ some "VPC_REQUEST" then
      (.error ("not a VPC_REQUEST item: " ++ request_id), s)
    else if terminalStatus item.status then (.ok (), s)
    else
      let req := item.request.getD {}
      if req.subnets.length > MAX_SUBNETS then
        (.ok (), update_fields request_id
          { status := some .FAILED
            error := some ("Too many subnets: " ++ toString req.subnets.length ++
              " (max " ++ toString MAX_SUBNETS ++ ")") } s)
      else
        let current_result := item.result.getD {}
        let created := current_result.subnets
        let keys := created.map subnetKey
        let s := update_fields request_id { status := some .IN_PROGRESS } s
        match tryBody ec2 request_id req current_result.vpc_id current_result created keys s with
        | (.ok u, s) => (.ok u, s)
        | (.error e, s) => (.error e, update_fields request_id
            { status := some .FAILED, error := some e } s)

/-! ## The intake handler (`handle_post_vpcs`, lines 160-233)

The call is embedded as a small-step machine whose steps are the call's
atomic table/queue operations, so that two concurrent calls can be run
under an arbitrary interleaving.  Header extraction and body parsing are
out of scope: a call's parameters carry the caller identity (the JWT
`sub`), the idempotency header value, the parsed body, the freshly
generated UUID, and the timestamps. -/

def IDEMPOTENCY_HEADER : String := "idempotency-key"

/-- `_lock_pk` (lines 144-147). -/
def lock_pk (created_by : String) (idem : String) : String :=
  "lock#" ++ created_by ++ "#" ++ idem

structure CallParams where
  created_by : String
  idem : Option String
  payload : Payload
  rid : String
  now : Nat
  ttl_epoch : Nat
deriving DecidableEq, Repr

def CallParams.lockKey (p : CallParams) : String := lock_pk p.created_by (p.idem.getD "")

/-- The lock row written by the conditional put (lines 180-189); its table
key is `lockKey`.  Note it has no `created_by` attribute. -/
def lockItemOf (p : CallParams) : Item :=
  { type := some "IDEMPOTENCY_LOCK"
    ttl_epoch := some p.ttl_epoch
    lock_request_id := some p.rid
    created_at := some p.now }

/-- The request row written by the winner (lines 216-229). -/
def reqItemOf (p : CallParams) (vpc_cidr : String) (subnets : List SubnetSpec) : Item :=
  { type := some "VPC_REQUEST"
    created_by := some p.created_by
    idempotency_key := p.idem
    created_at := some p.now
    updated_at := some p.now
    ttl_epoch := some p.ttl_epoch
    status := some .QUEUED
    request := some { vpc_cidr := some vpc_cidr, subnets := subnets } }

/-- An HTTP response body, structurally. -/
inductive RespBody
  | message (msg : String)
  | acceptedBasic (request_id : String) (status : String)
  | acceptedFull (request_id : String) (status : String) (result : Option ResultRec)
      (error_message : Option String)
deriving DecidableEq, Repr

structure HttpResp where
  code : Nat
  body : RespBody
deriving DecidableEq, Repr

/-- The `request_id` a 202 response refers to. -/
def HttpResp.ridOf : HttpResp → Option String
  | ⟨_, .acceptedBasic r _⟩ => some r
  | ⟨_, .acceptedFull r _ _ _⟩ => some r
  | _ => none

/-- Program counter of one intake call.  `atLock` onward carries the
validated payload. -/
inductive ISt
  | start
  | atLock (vpc_cidr : String) (subnets : List SubnetSpec)
  | wPutReq (vpc_cidr : String) (subnets : List SubnetSpec)
  | wSend
  | lGetLock
  | lGetReq (ownerRid : String)
  | done (r : HttpResp)
deriving DecidableEq, Repr

/-- Trace events of the intake machine. -/
inductive IEv
  | evValidate
  | evCondPutLock (key : String) (won : Bool)
  | evGetItem (key : String)
  | evPutItem (key : String)
  | evSend (request_id : String)
deriving DecidableEq, Repr

/-- Table, queue and trace shared by the calls of one scenario. -/
structure GState where
  store : Store
  queue : List String
  events : List IEv
deriving DecidableEq, Repr

/-- One atomic step of a call.  `start` performs the header check —
`if not idem:` answers 400 for an absent and for an empty header value
alike — and validation (pure, lines 161-170); `atLock` is the conditional put
(lines 179-194); the winner then writes the request row (line 216) and
sends the queue message (line 231); the loser reads the lock (line 197)
and the owner's request row (line 202). -/
def istep (p : CallParams) : ISt → GState → ISt × GState
  | .start, g =>
    match p.idem with
    | none => (.done ⟨400, .message "Missing Idempotency-Key header"⟩, g)
    | some tok =>
      if tok = "" then (.done ⟨400, .message "Missing Idempotency-Key header"⟩, g)
      else
        match validate_request p.payload with
        | .error m => (.done ⟨400, .message m⟩, { g with events := g.events ++ [.evValidate] })
        | .ok (c, ps) => (.atLock c ps, { g with events := g.events ++ [.evValidate] })
  | .atLock c ps, g =>
    match sget g.store p.lockKey with
    | some _ =>
      (.lGetLock, { g with events := g.events ++ [.evCondPutLock p.lockKey false] })
    | none =>
      (.wPutReq c ps,
        { g with store := sput g.store p.lockKey (lockItemOf p)
                 events := g.events ++ [.evCondPutLock p.lockKey true] })
  | .wPutReq c ps, g =>
    (.wSend, { g with store := sput g.store p.rid (reqItemOf p c ps)
                      events := g.events ++ [.evPutItem p.rid] })
  | .wSend, g =>
    (.done ⟨202, .acceptedBasic p.rid "QUEUED"⟩,
      { g with queue := g.queue ++ [p.rid], events := g.events ++ [.evSend p.rid] })
  | .lGetLock, g =>
    let g := { g with events := g.events ++ [.evGetItem p.lockKey] }
    match sget g.store p.lockKey with
    | none => (.done ⟨409, .message "Idempotency lock exists but is unreadable"⟩, g)
    | some lock =>
      match lock.lock_request_id with
      | none => (.done ⟨409, .message "Idempotency lock exists but is unreadable"⟩, g)
      | some o => (.lGetReq o, g)
  | .lGetReq o, g =>
    let g := { g with events := g.events ++ [.evGetItem o] }
    match sget g.store o with
    | none => (.done ⟨202, .acceptedBasic o "QUEUED"⟩, g)
    | some existing =>
      (.done ⟨202, .acceptedFull o ((existing.status.map Status.str).getD "UNKNOWN")
        existing.result existing.error_message⟩, g)
  | .done r, g => (.done r, g)

/-- Run one call to completion (a call takes at most 5 steps). -/
def runCall (p : CallParams) (g : GState) : ISt × GState :=
  let s1 := istep p .start g
  let s2 := istep p s1.1 s1.2
  let s3 := istep p s2.1 s2.2
  let s4 := istep p s3.1 s3.2
  istep p s4.1 s4.2

/-- Two concurrent calls under a schedule: `true` steps the first call,
`false` the second.  A step scheduled for a finished call is a no-op. -/
def run2 (p1 p2 : CallParams) : List Bool → ISt × ISt × GState → ISt × ISt × GState
  | [], cfg => cfg
  | b :: rest, (t1, t2, g) =>
    if b then
      let s := istep p1 t1 g
      run2 p1 p2 rest (s.1, t2, s.2)
    else
      let s := istep p2 t2 g
      run2 p1 p2 rest (t1, s.1, s.2)

/-! ## The attributes of the stored lock row (for the identity-privacy claim)

The lock row as `put_item` serialises it: attribute names with their values
rendered as strings (numbers in decimal).  This is exactly the `Item`
literal at lines 181-187. -/

def lockAttrs (created_by : String) (idem : String) (rid : String) (now ttl : Nat) :
    List (String × String) :=
  [("request_id", lock_pk created_by idem),
   ("ttl_epoch", toString ttl),
   ("lock_request_id", rid),
   ("type", "IDEMPOTENCY_LOCK"),
   ("created_at", toString now)]

/-- `needle` occurs verbatim inside `hay`. -/
def strContains (hay needle : String) : Prop := ∃ a b, hay = a ++ needle ++ b

/-! ## Observations over worker traces and stores -/

/-- `ys` extends `xs` on the right (`xs` is an initial segment of `ys`). -/
def ListLE {α : Type _} (xs ys : List α) : Prop := ∃ zs, ys = xs ++ zs

/-- The `(cidr, az)` keys of the `create_subnet` calls of a trace, in
order. -/
def csk (Δ : List WEv) : List (String × String) :=
  Δ.filterMap fun e => match e with | .callCreateSubnet _ c a => some (c, a) | _ => none

/-- The statuses written by a trace, in order. -/
def statusWrites (Δ : List WEv) : List Status :=
  Δ.filterMap fun e => match e with | .write _ a => a.status | _ => none

/-- The last `result` value a trace checkpoints, if any. -/
def lastRes (Δ : List WEv) : Option ResultRec :=
  (Δ.filterMap fun e => match e with | .write _ a => a.result | _ => none).getLast?

/-- First-`some` choice on options. -/
def oor {α : Type _} : Option α → Option α → Option α
  | some x, _ => some x
  | none, y => y

/-- The `result` attribute stored for `rid`. -/
def itemRes (st : Store) (rid : String) : Option ResultRec :=
  ((sget st rid).getD {}).result

/-- `l` is `created` extended by fresh entries: entries whose `(cidr, az)`
keys are pairwise distinct and none of which is in `keys`. -/
def GrownFrom (created : List CreatedSubnet) (keys : List (String × String))
    (l : List CreatedSubnet) : Prop :=
  ∃ newC, l = created ++ newC ∧ (newC.map subnetKey).Nodup ∧
    ∀ k ∈ newC.map subnetKey, k ∉ keys

theorem GrownFrom.refl (created : List CreatedSubnet) (keys : List (String × String)) :
    GrownFrom created keys created := ⟨[], by simp⟩

theorem ListLE.refl' {α : Type _} (xs : List α) : ListLE xs xs := ⟨[], by simp⟩

theorem ListLE_nil {α : Type _} (l : List α) : ListLE [] l := ⟨l, rfl⟩

theorem GrownFrom.listLE {created keys l} (h : GrownFrom created keys l) :
    ListLE created l := by
  obtain ⟨nc, rfl, -, -⟩ := h
  exact ⟨nc, rfl⟩

/-- Absorb one freshly created entry into a `GrownFrom` fact. -/
theorem GrownFrom.step {created keys l} (n : CreatedSubnet)
    (h : GrownFrom (created ++ [n]) (keys ++ [subnetKey n]) l)
    (hn : subnetKey n ∉ keys) : GrownFrom created keys l := by
  obtain ⟨nc, rfl, hnd, hk⟩ := h
  refine ⟨n :: nc, by simp, ?_, ?_⟩
  · refine List.nodup_cons.mpr ⟨fun hmem => ?_, hnd⟩
    have := hk _ hmem
    simp at this
  · intro k hmem
    rcases List.mem_cons.mp hmem with h | h
    · subst h; exact hn
    · intro hkk
      exact hk _ h (by simp [hkk])

theorem GrownFrom.nodup {created l} (h : GrownFrom created (created.map subnetKey) l)
    (hc : (created.map subnetKey).Nodup) : (l.map subnetKey).Nodup := by
  obtain ⟨nc, rfl, hnd, hk⟩ := h
  rw [List.map_append]
  exact List.Nodup.append hc hnd fun k h1 h2 => hk k h2 h1

theorem getLast?_append_oor {α : Type _} (a b : List α) :
    (a ++ b).getLast? = oor b.getLast? a.getLast? := by
  cases b with
  | nil => simp [oor]
  | cons x xs =>
    rw [List.getLast?_append_cons]
    rcases hv : (x :: xs).getLast? with - | v
    · simp [List.getLast?_eq_none_iff] at hv
    · simp [oor]

theorem lastRes_append (A B : List WEv) :
    lastRes (A ++ B) = oor (lastRes B) (lastRes A) := by
  unfold lastRes
  rw [List.filterMap_append, getLast?_append_oor]

theorem oor_assoc {α : Type _} (a b c : Option α) : oor a (oor b c) = oor (oor a b) c := by
  cases a <;> cases b <;> simp [oor]

theorem sget_sput_same (st : Store) (k : String) (v : Item) : sget (sput st k v) k = some v := by
  simp [sget, sput, List.find?]

/-- A split of `A ++ B` at an element not in `A` lies in `B`: the part of
the split before the element extends `A`. -/
theorem split_after {α : Type _} :
    ∀ (A : List α) {B pre suf : List α} {x : α}, A ++ B = pre ++ x :: suf → x ∉ A →
      ∃ pre', pre = A ++ pre' := by
  intro A
  induction A with
  | nil =>
    intro B pre suf x h hx
    exact ⟨pre, (List.nil_append pre).symm⟩
  | cons a A' ih =>
    intro B pre suf x h hx
    cases pre with
    | nil =>
      rw [List.nil_append, List.cons_append] at h
      obtain ⟨rfl, -⟩ := List.cons.inj h
      exact absurd (List.mem_cons_self _ _) hx
    | cons p pre'' =>
      rw [List.cons_append, List.cons_append] at h
      obtain ⟨rfl, h'⟩ := List.cons.inj h
      obtain ⟨pre', rfl⟩ := ih h' (fun hm => hx (List.mem_cons_of_mem _ hm))
      exact ⟨pre', rfl⟩

/-- A split of `A ++ B` at an element not in `B` lies in `A`. -/
theorem split_before {α : Type _} :
    ∀ (A : List α) {B pre suf : List α} {x : α}, A ++ B = pre ++ x :: suf → x ∉ B →
      ∃ suf', A = pre ++ x :: suf' := by
  intro A
  induction A with
  | nil =>
    intro B pre suf x h hx
    rw [List.nil_append] at h
    subst h
    exact absurd (by simp) hx
  | cons a A' ih =>
    intro B pre suf x h hx
    cases pre with
    | nil =>
      rw [List.nil_append, List.cons_append] at h
      obtain ⟨rfl, h'⟩ := List.cons.inj h
      exact ⟨A', by simp⟩
    | cons p pre'' =>
      rw [List.cons_append, List.cons_append] at h
      obtain ⟨rfl, h'⟩ := List.cons.inj h
      obtain ⟨suf', hs⟩ := ih h' hx
      exact ⟨suf', by rw [List.cons_append, hs]⟩

theorem itemRes_update (rid : String) (a : UpdateArgs) (s : WState) :
    itemRes (update_fields rid a s).store rid = oor a.result (itemRes s.store rid) := by
  unfold itemRes update_fields
  rw [sget_sput_same]
  rcases ha : a.result with - | v <;> simp [mergeUpdate, oor, ha]

theorem trace_update (rid : String) (a : UpdateArgs) (s : WState) :
    (update_fields rid a s).trace = s.trace ++ [.write rid a] := rfl

theorem filter_notmem_snoc {α : Type _} [DecidableEq α] (l keys : List α) (k0 : α)
    (h : k0 ∉ l) :
    l.filter (fun k => decide (k ∉ keys ++ [k0])) = l.filter (fun k => decide (k ∉ keys)) := by
  apply List.filter_congr
  intro k hk
  have hne : k ≠ k0 := fun he => h (he ▸ hk)
  simp [List.mem_append, hne]

/-- The full behaviour of the subnet loop: (1) its trace extends the input
trace; every `create_subnet` call (2) targets the loop's VPC and a key not
in the recovered set; (3) it never creates a network; (4) every checkpoint
targets this request, writes no status and no error, and writes a `result`
whose subnet list extends `created` by fresh, distinct, unrecovered
entries; (5) so does the final result on success; (6) the stored `result`
is the last checkpoint, if any; (7) if the spec's subnet keys are distinct,
the keys of the `create_subnet` calls are an initial segment of the spec's
keys filtered by non-membership in the recovered set — the whole of it on
success. -/
theorem subnetLoop_spec (ec2 : Ec2) (rid vid : String) :
    ∀ (subs : List SubnetSpec) (created : List CreatedSubnet) (keys : List (String × String))
      (res : ResultRec) (s : WState), keys = created.map subnetKey → res.subnets = created →
    ∃ Δ,
      (subnetLoop ec2 rid vid subs created keys res s).2.trace = s.trace ++ Δ ∧
      (∀ v c a, WEv.callCreateSubnet v c a ∈ Δ → v = vid ∧ (c, a) ∉ keys) ∧
      (∀ c, WEv.callCreateVpc c ∉ Δ) ∧
      (∀ r args, WEv.write r args ∈ Δ → r = rid ∧ args.status = none ∧ args.error = none ∧
        ∃ rr, args.result = some rr ∧ GrownFrom created keys rr.subnets) ∧
      (∀ res', (subnetLoop ec2 rid vid subs created keys res s).1 = .ok res' →
        GrownFrom created keys res'.subnets) ∧
      itemRes (subnetLoop ec2 rid vid subs created keys res s).2.store rid =
        oor (lastRes Δ) (itemRes s.store rid) ∧
      ((subs.map specKey).Nodup →
        ListLE (csk Δ) ((subs.map specKey).filter (fun k => decide (k ∉ keys))) ∧
        (∀ res', (subnetLoop ec2 rid vid subs created keys res s).1 = .ok res' →
          csk Δ = (subs.map specKey).filter (fun k => decide (k ∉ keys)))) := by
  intro subs
  induction subs with
  | nil =>
    intro created keys res s hkeys hres
    refine ⟨[], by simp [subnetLoop], by simp, by simp, by simp, ?_, by simp [subnetLoop, lastRes, oor], by simp [csk, ListLE]⟩
    intro res' h
    simp [subnetLoop] at h
    subst h
    exact hres ▸ GrownFrom.refl created keys
  | cons sub rest ih =>
    intro created keys res s hkeys hres
    by_cases hk : (sub.cidr, sub.az) ∈ keys
    · obtain ⟨Δ, h1, h2, h3, h4, h5, h6, h7⟩ := ih created keys res s hkeys hres
      refine ⟨Δ, ?_, h2, h3, h4, ?_, ?_, ?_⟩
      · simpa [subnetLoop, hk] using h1
      · intro res' h
        exact h5 res' (by simpa [subnetLoop, hk] using h)
      · simpa [subnetLoop, hk] using h6
      · intro hW
        rw [List.map_cons] at hW
        obtain ⟨h7a, h7b⟩ := h7 hW.of_cons
        have hfil : ((sub :: rest).map specKey).filter (fun k => decide (k ∉ keys)) =
            (rest.map specKey).filter (fun k => decide (k ∉ keys)) := by
          simp [specKey, hk]
        refine ⟨by rw [hfil]; exact h7a, ?_⟩
        intro res' h
        rw [hfil]
        exact h7b res' (by simpa [subnetLoop, hk] using h)
    · rcases hcs : ec2.create_subnet vid sub.cidr sub.az with e | sid
      · -- create_subnet raises
        refine ⟨[.callCreateSubnet vid sub.cidr sub.az], ?_, ?_, by simp, by simp, ?_, ?_, ?_⟩
        · simp [subnetLoop, hk, hcs, logEv]
        · intro v c a hm
          simp at hm
          obtain ⟨rfl, rfl, rfl⟩ := hm
          exact ⟨rfl, hk⟩
        · intro res' h
          simp [subnetLoop, hk, hcs] at h
        · simp [subnetLoop, hk, hcs, logEv, lastRes, oor]
        · intro hW
          refine ⟨?_, ?_⟩
          · refine ⟨((rest.map specKey).filter (fun k => decide (k ∉ keys))), ?_⟩
            simp [csk, specKey, hk]
          · intro res' h
            simp [subnetLoop, hk, hcs] at h
      · rcases hct : ec2.create_tags [sid] (FIXED_TAGS ++ [("RequestId", rid)]) with e | u
        · -- create_tags raises
          refine ⟨[.callCreateSubnet vid sub.cidr sub.az,
            .callCreateTags [sid] (FIXED_TAGS ++ [("RequestId", rid)])],
            ?_, ?_, by simp, by simp, ?_, ?_, ?_⟩
          · simp [subnetLoop, hk, hcs, tagCall, hct, logEv]
          · intro v c a hm
            simp at hm
            obtain ⟨rfl, rfl, rfl⟩ := hm
            exact ⟨rfl, hk⟩
          · intro res' h
            simp [subnetLoop, hk, hcs, tagCall, hct] at h
          · simp [subnetLoop, hk, hcs, tagCall, hct, logEv, lastRes, oor]
          · intro hW
            refine ⟨⟨((rest.map specKey).filter (fun k => decide (k ∉ keys))), by
              simp [csk, specKey, hk]⟩, ?_⟩
            intro res' h
            simp [subnetLoop, hk, hcs, tagCall, hct] at h
        · -- subnet created and tagged; then the optional name tag
          have hcomb : ∀ (mid : List WEv) (s2 : WState),
              (∀ e ∈ mid, ∃ rs tg, e = WEv.callCreateTags rs tg) →
              s2.trace = s.trace ++ (WEv.callCreateSubnet vid sub.cidr sub.az :: mid) →
              s2.store = s.store →
              subnetLoop ec2 rid vid (sub :: rest) created keys res s =
                subnetLoop ec2 rid vid rest (created ++ [⟨sid, sub.cidr, sub.az, sub.name⟩])
                  (keys ++ [(sub.cidr, sub.az)])
                  { res with subnets := created ++ [⟨sid, sub.cidr, sub.az, sub.name⟩] }
                  (update_fields rid
                    { result := some
                        { res with subnets := created ++ [⟨sid, sub.cidr, sub.az, sub.name⟩] } }
                    s2) →
              ∃ Δ,
                (subnetLoop ec2 rid vid (sub :: rest) created keys res s).2.trace =
                  s.trace ++ Δ ∧
                (∀ v c a, WEv.callCreateSubnet v c a ∈ Δ → v = vid ∧ (c, a) ∉ keys) ∧
                (∀ c, WEv.callCreateVpc c ∉ Δ) ∧
                (∀ r args, WEv.write r args ∈ Δ → r = rid ∧ args.status = none ∧
                  args.error = none ∧ ∃ rr, args.result = some rr ∧
                    GrownFrom created keys rr.subnets) ∧
                (∀ res', (subnetLoop ec2 rid vid (sub :: rest) created keys res s).1 = .ok res' →
                  GrownFrom created keys res'.subnets) ∧
                itemRes (subnetLoop ec2 rid vid (sub :: rest) created keys res s).2.store rid =
                  oor (lastRes Δ) (itemRes s.store rid) ∧
                (((sub :: rest).map specKey).Nodup →
                  ListLE (csk Δ)
                    (((sub :: rest).map specKey).filter (fun k => decide (k ∉ keys))) ∧
                  (∀ res',
                    (subnetLoop ec2 rid vid (sub :: rest) created keys res s).1 = .ok res' →
                    csk Δ =
                      ((sub :: rest).map specKey).filter (fun k => decide (k ∉ keys)))) := by
            intro mid s2 hmid htr hst hout
            have hkeys' : keys ++ [(sub.cidr, sub.az)] =
                (created ++ [(⟨sid, sub.cidr, sub.az, sub.name⟩ : CreatedSubnet)]).map subnetKey := by
              rw [List.map_append, hkeys]
              rfl
            obtain ⟨Δr, g1, g2, g3, g4, g5, g6, g7⟩ :=
              ih (created ++ [⟨sid, sub.cidr, sub.az, sub.name⟩]) (keys ++ [(sub.cidr, sub.az)])
                { res with subnets := created ++ [⟨sid, sub.cidr, sub.az, sub.name⟩] }
                (update_fields rid
                  { result := some
                      { res with subnets := created ++ [⟨sid, sub.cidr, sub.az, sub.name⟩] } }
                  s2) hkeys' rfl
            have hGnew : GrownFrom created keys
                (created ++ [(⟨sid, sub.cidr, sub.az, sub.name⟩ : CreatedSubnet)]) :=
              ⟨[⟨sid, sub.cidr, sub.az, sub.name⟩], rfl, by simp, by
                intro k hm
                simp [subnetKey] at hm
                subst hm
                exact hk⟩
            refine ⟨WEv.callCreateSubnet vid sub.cidr sub.az :: mid ++
              (WEv.write rid
                { result := some
                    { res with subnets := created ++ [⟨sid, sub.cidr, sub.az, sub.name⟩] } } :: Δr),
              ?_, ?_, ?_, ?_, ?_, ?_, ?_⟩
            · rw [hout, g1]
              simp [update_fields, htr]
            · intro v c a hm
              rcases List.mem_cons.mp hm with h | h
              · obtain ⟨rfl, rfl, rfl⟩ : vid = v ∧ sub.cidr = c ∧ sub.az = a := by
                  injection h.symm with h1 h2 h3
                  exact ⟨h1, h2, h3⟩
                exact ⟨rfl, hk⟩
              rcases List.mem_append.mp h with h | h
              · obtain ⟨rs, tg, heq⟩ := hmid _ h
                cases heq
              rcases List.mem_cons.mp h with h | h
              · cases h
              · obtain ⟨hv, hnk⟩ := g2 v c a h
                exact ⟨hv, fun hmem => hnk (List.mem_append_left _ hmem)⟩
            · intro c hm
              rcases List.mem_cons.mp hm with h | h
              · cases h
              rcases List.mem_append.mp h with h | h
              · obtain ⟨rs, tg, heq⟩ := hmid _ h
                cases heq
              rcases List.mem_cons.mp h with h | h
              · cases h
              · exact g3 c h
            · intro r args hm
              rcases List.mem_cons.mp hm with h | h
              · cases h
              rcases List.mem_append.mp h with h | h
              · obtain ⟨rs, tg, heq⟩ := hmid _ h
                cases heq
              rcases List.mem_cons.mp h with h | h
              · obtain ⟨rfl, rfl⟩ : rid = r ∧ _ = args := by
                  injection h.symm with h1 h2
                  exact ⟨h1, h2⟩
                exact ⟨rfl, rfl, rfl, _, rfl, hGnew⟩
              · obtain ⟨hr, hs', he', rr, hrr, hg⟩ := g4 r args h
                exact ⟨hr, hs', he', rr, hrr, hg.step _ hk⟩
            · intro res' h
              rw [hout] at h
              exact (g5 res' h).step _ hk
            · rw [hout, g6, itemRes_update, hst]
              have hmidres : lastRes (WEv.callCreateSubnet vid sub.cidr sub.az :: mid ++
                  (WEv.write rid
                    { result := some
                        { res with subnets := created ++ [⟨sid, sub.cidr, sub.az, sub.name⟩] } } :: Δr)) =
                  oor (lastRes Δr)
                    (some { res with subnets := created ++ [⟨sid, sub.cidr, sub.az, sub.name⟩] }) := by
                have : WEv.callCreateSubnet vid sub.cidr sub.az :: mid ++
                    (WEv.write rid
                      { result := some
                          { res with subnets := created ++ [⟨sid, sub.cidr, sub.az, sub.name⟩] } } :: Δr) =
                    (WEv.callCreateSubnet vid sub.cidr sub.az :: mid ++
                      [WEv.write rid
                        { result := some
                            { res with subnets := created ++ [⟨sid, sub.cidr, sub.az, sub.name⟩] } }]) ++ Δr := by
                  simp
                rw [this, lastRes_append]
                have hpre : lastRes (WEv.callCreateSubnet vid sub.cidr sub.az :: mid ++
                    [WEv.write rid
                      { result := some
                          { res with subnets := created ++ [⟨sid, sub.cidr, sub.az, sub.name⟩] } }]) =
                    some { res with subnets := created ++ [⟨sid, sub.cidr, sub.az, sub.name⟩] } := by
                  have hmnil : mid.filterMap
                      (fun e => match e with | .write _ a => a.result | _ => none) = [] := by
                    rw [List.filterMap_eq_nil_iff]
                    intro e he
                    obtain ⟨rs, tg, rfl⟩ := hmid _ he
                    rfl
                  simp [lastRes, List.filterMap_append, hmnil]
                rw [hpre]
              rw [hmidres, ← oor_assoc]
            · intro hW
              rw [List.map_cons] at hW
              have hW' := List.nodup_cons.mp hW
              have hnotin : (sub.cidr, sub.az) ∉ rest.map specKey := hW'.1
              have hfil : (rest.map specKey).filter
                  (fun k => decide (k ∉ keys ++ [(sub.cidr, sub.az)])) =
                  (rest.map specKey).filter (fun k => decide (k ∉ keys)) := by
                apply List.filter_congr
                intro k hkmem
                have hne : k ≠ (sub.cidr, sub.az) := fun he => hnotin (he ▸ hkmem)
                simp [List.mem_append, hne]
              obtain ⟨g7a, g7b⟩ := g7 hW'.2
              have hcsk : csk (WEv.callCreateSubnet vid sub.cidr sub.az :: mid ++
                  (WEv.write rid
                    { result := some
                        { res with subnets := created ++ [⟨sid, sub.cidr, sub.az, sub.name⟩] } } :: Δr)) =
                  (sub.cidr, sub.az) :: csk Δr := by
                have hmnil : mid.filterMap
                    (fun e => match e with | .callCreateSubnet _ c a => some (c, a) | _ => none) =
                    [] := by
                  rw [List.filterMap_eq_nil_iff]
                  intro e he
                  obtain ⟨rs, tg, rfl⟩ := hmid _ he
                  rfl
                simp [csk, List.filterMap_append, hmnil]
              have hfilcons : ((sub :: rest).map specKey).filter
                  (fun k => decide (k ∉ keys)) =
                  (sub.cidr, sub.az) :: (rest.map specKey).filter (fun k => decide (k ∉ keys)) := by
                simp [specKey, hk]
              constructor
              · rw [hcsk, hfilcons]
                obtain ⟨zs, hzs⟩ := g7a
                rw [hfil] at hzs
                exact ⟨zs, by rw [hzs]; rfl⟩
              · intro res' hok
                rw [hout] at hok
                rw [hcsk, hfilcons, g7b res' hok, hfil]
          rcases hname : sub.name with - | n
          · refine hcomb [WEv.callCreateTags [sid] (FIXED_TAGS ++ [("RequestId", rid)])]
              (logEv (WEv.callCreateTags [sid] (FIXED_TAGS ++ [("RequestId", rid)]))
                (logEv (WEv.callCreateSubnet vid sub.cidr sub.az) s))
              (by intro e he; simp at he; exact ⟨_, _, he⟩)
              (by simp [logEv]) (by simp [logEv]) ?_
            simp [subnetLoop, hk, hcs, tagCall, hct, hname, logEv]
          · by_cases hn : n = ""
            · refine hcomb [WEv.callCreateTags [sid] (FIXED_TAGS ++ [("RequestId", rid)])]
                (logEv (WEv.callCreateTags [sid] (FIXED_TAGS ++ [("RequestId", rid)]))
                  (logEv (WEv.callCreateSubnet vid sub.cidr sub.az) s))
                (by intro e he; simp at he; exact ⟨_, _, he⟩)
                (by simp [logEv]) (by simp [logEv]) ?_
              simp [subnetLoop, hk, hcs, tagCall, hct, hname, hn, logEv]
            · rcases hnt : ec2.create_tags [sid] [("SubnetName", n)] with e | u
              · -- the name tag raises
                refine ⟨[.callCreateSubnet vid sub.cidr sub.az,
                  .callCreateTags [sid] (FIXED_TAGS ++ [("RequestId", rid)]),
                  .callCreateTags [sid] [("SubnetName", n)]],
                  ?_, ?_, by simp, by simp, ?_, ?_, ?_⟩
                · simp [subnetLoop, hk, hcs, tagCall, hct, hname, hn, hnt, logEv]
                · intro v c a hm
                  simp at hm
                  obtain ⟨rfl, rfl, rfl⟩ := hm
                  exact ⟨rfl, hk⟩
                · intro res' h
                  simp [subnetLoop, hk, hcs, tagCall, hct, hname, hn, hnt] at h
                · simp [subnetLoop, hk, hcs, tagCall, hct, hname, hn, hnt, logEv, lastRes, oor]
                · intro hW
                  refine ⟨⟨((rest.map specKey).filter (fun k => decide (k ∉ keys))), by
                    simp [csk, specKey, hk]⟩, ?_⟩
                  intro res' h
                  simp [subnetLoop, hk, hcs, tagCall, hct, hname, hn, hnt] at h
              · refine hcomb [WEv.callCreateTags [sid] (FIXED_TAGS ++ [("RequestId", rid)]),
                  WEv.callCreateTags [sid] [("SubnetName", n)]]
                  (logEv (WEv.callCreateTags [sid] [("SubnetName", n)])
                    (logEv (WEv.callCreateTags [sid] (FIXED_TAGS ++ [("RequestId", rid)]))
                      (logEv (WEv.callCreateSubnet vid sub.cidr sub.az) s)))
                  ?_ (by simp [logEv]) (by simp [logEv]) ?_
                · intro e he
                  simp at he
                  rcases he with h | h <;> exact ⟨_, _, h⟩
                · simp [subnetLoop, hk, hcs, tagCall, hct, hname, hn, hnt, logEv]
theorem wait_spec (ec2 : Ec2) (vid : String) :
    ∀ (fuel i : Nat) (s : WState),
      ∃ Δ, (wait_vpc_available ec2 vid fuel i s).2.trace = s.trace ++ Δ ∧
        (∀ e ∈ Δ, e = WEv.callDescribeVpcs vid) ∧
        (wait_vpc_available ec2 vid fuel i s).2.store = s.store := by
  intro fuel
  induction fuel with
  | zero =>
    intro i s
    exact ⟨[], by simp [wait_vpc_available]⟩
  | succ fuel ihf =>
    intro i s
    rcases hd : ec2.describe_vpc_state vid i with e | st
    · exact ⟨[.callDescribeVpcs vid], by simp [wait_vpc_available, hd, logEv]⟩
    · by_cases hst : st = "available"
      · exact ⟨[.callDescribeVpcs vid], by simp [wait_vpc_available, hd, hst, logEv]⟩
      · obtain ⟨Δ, h1, h2, h3⟩ := ihf (i + 1) (logEv (.callDescribeVpcs vid) s)
        refine ⟨.callDescribeVpcs vid :: Δ, ?_, ?_, ?_⟩
        · rw [show (wait_vpc_available ec2 vid (fuel + 1) i s) =
            wait_vpc_available ec2 vid fuel (i + 1) (logEv (.callDescribeVpcs vid) s) by
              simp [wait_vpc_available, hd, hst]]
          rw [h1]
          simp [logEv]
        · intro e he
          rcases List.mem_cons.mp he with h | h
          · exact h
          · exact h2 e h
        · rw [show (wait_vpc_available ec2 vid (fuel + 1) i s) =
            wait_vpc_available ec2 vid fuel (i + 1) (logEv (.callDescribeVpcs vid) s) by
              simp [wait_vpc_available, hd, hst]]
          rw [h3]
          simp [logEv]

/-- `wait_vpc_available` never raises when every poll answers without an
error (in particular it gives up silently on timeout). -/
theorem wait_ok_of_no_error (ec2 : Ec2) (vid : String) :
    ∀ (fuel i : Nat) (s : WState), (∀ j, ∃ st, ec2.describe_vpc_state vid j = .ok st) →
      ∃ u, (wait_vpc_available ec2 vid fuel i s).1 = .ok u := by
  intro fuel
  induction fuel with
  | zero => intro i s _; exact ⟨(), by simp [wait_vpc_available]⟩
  | succ fuel ihf =>
    intro i s hok
    obtain ⟨st, hd⟩ := hok i
    by_cases hst : st = "available"
    · exact ⟨(), by simp [wait_vpc_available, hd, hst]⟩
    · obtain ⟨u, hu⟩ := ihf (i + 1) (logEv (.callDescribeVpcs vid) s) hok
      exact ⟨u, by simpa [wait_vpc_available, hd, hst] using hu⟩

/-- The checkpointed result after network creation (line 113-117). -/
def ckRes (res : ResultRec) (vid c : String) (created : List CreatedSubnet) : ResultRec :=
  { res with vpc_id := some vid, vpc_cidr := some c, subnets := created }

/-- The network-creation phase: no subnet call; every write is the single
checkpoint persisting a result that has the new `vpc_id`, the spec's
network CIDR and the untouched recovered subnet list; on success that
checkpoint is in the trace. -/
theorem vpcPhase_spec (ec2 : Ec2) (rid : String) (req : ReqSpec) (res : ResultRec)
    (created : List CreatedSubnet) (s : WState) :
    ∃ Δ, (vpcPhase ec2 rid req res created s).2.trace = s.trace ++ Δ ∧
      (∀ v c a, WEv.callCreateSubnet v c a ∉ Δ) ∧
      (∀ r args, WEv.write r args ∈ Δ → r = rid ∧ args.status = none ∧ args.error = none ∧
        ∃ rr, args.result = some rr ∧ rr.subnets = created ∧ rr.vpc_id.isSome ∧
          rr.vpc_cidr = req.vpc_cidr) ∧
      (∀ vid' res', (vpcPhase ec2 rid req res created s).1 = .ok (vid', res') →
        res'.vpc_id = some vid' ∧ res'.vpc_cidr = req.vpc_cidr ∧ res'.subnets = created ∧
        WEv.write rid { result := some res' } ∈ Δ) ∧
      itemRes (vpcPhase ec2 rid req res created s).2.store rid =
        oor (lastRes Δ) (itemRes s.store rid) := by
  rcases hc : req.vpc_cidr with - | c
  · exact ⟨[], by simp [vpcPhase, hc, lastRes, oor]⟩
  · rcases hcv : ec2.create_vpc c with e | vid
    · exact ⟨[.callCreateVpc c], by simp [vpcPhase, hc, hcv, logEv, lastRes, oor]⟩
    · rcases hct : ec2.create_tags [vid] (FIXED_TAGS ++ [("RequestId", rid)]) with e | u
      · exact ⟨[.callCreateVpc c, .callCreateTags [vid] (FIXED_TAGS ++ [("RequestId", rid)])],
          by simp [vpcPhase, hc, hcv, tagCall, hct, logEv, lastRes, oor]⟩
      · obtain ⟨Δw, hw1, hw2, hw3⟩ := wait_spec ec2 vid ec2.poll_fuel 0
          (logEv (.callCreateTags [vid] (FIXED_TAGS ++ [("RequestId", rid)]))
            (logEv (.callCreateVpc c) s))
        have hwnores : ∀ e ∈ Δw, (match e with | WEv.write _ a => a.result | _ => none) = none := by
          intro e he
          rw [hw2 e he]
        rcases hwr : (wait_vpc_available ec2 vid ec2.poll_fuel 0
          (logEv (.callCreateTags [vid] (FIXED_TAGS ++ [("RequestId", rid)]))
            (logEv (.callCreateVpc c) s))) with ⟨wout, sw⟩
        rw [hwr] at hw1 hw3
        simp at hw1 hw3
        rcases wout with e | wu
        · refine ⟨[.callCreateVpc c, .callCreateTags [vid] (FIXED_TAGS ++ [("RequestId", rid)])] ++
            Δw, ?_, ?_, ?_, ?_, ?_⟩
          · have hred : (vpcPhase ec2 rid req res created s).2 = sw := by
              simp [vpcPhase, hc, hcv, tagCall, hct, hwr]
            rw [hred, hw1]
            simp [logEv]
          · intro v c' a hm
            rcases List.mem_append.mp hm with h | h
            · simp at h
            · exact absurd (hw2 _ h) (by simp)
          · intro r args hm
            rcases List.mem_append.mp hm with h | h
            · simp at h
            · exact absurd (hw2 _ h) (by simp)
          · intro vid' res' h
            rw [show (vpcPhase ec2 rid req res created s).1 = .error e by
              simp [vpcPhase, hc, hcv, tagCall, hct, hwr]] at h
            cases h
          · have hred : (vpcPhase ec2 rid req res created s).2 = sw := by
              simp [vpcPhase, hc, hcv, tagCall, hct, hwr]
            rw [hred]
            have hstw : sw.store = s.store := by
              rw [hw3]
              simp [logEv]
            rw [hstw]
            have hlr : lastRes ([WEv.callCreateVpc c,
                WEv.callCreateTags [vid] (FIXED_TAGS ++ [("RequestId", rid)])] ++ Δw) = none := by
              unfold lastRes
              rw [List.filterMap_append, List.filterMap_eq_nil_iff.mpr hwnores]
              simp
            rw [hlr]
            simp [oor]
        · -- the poll finished (ready or timed out); checkpoint
          refine ⟨([.callCreateVpc c, .callCreateTags [vid] (FIXED_TAGS ++ [("RequestId", rid)])] ++
            Δw) ++ [.write rid { result := some (ckRes res vid c created) }], ?_, ?_, ?_, ?_, ?_⟩
          · have hred : (vpcPhase ec2 rid req res created s).2 =
                update_fields rid { result := some (ckRes res vid c created) } sw := by
              simp [vpcPhase, hc, hcv, tagCall, hct, hwr, ckRes]
            rw [hred]
            simp [update_fields, hw1, logEv]
          · intro v c' a hm
            rcases List.mem_append.mp hm with h | h
            · rcases List.mem_append.mp h with h | h
              · simp at h
              · exact absurd (hw2 _ h) (by simp)
            · simp at h
          · intro r args hm
            rcases List.mem_append.mp hm with h | h
            · rcases List.mem_append.mp h with h | h
              · simp at h
              · exact absurd (hw2 _ h) (by simp)
            · rcases List.mem_cons.mp h with h | h
              · obtain ⟨rfl, rfl⟩ : rid = r ∧ _ = args := by
                  injection h.symm with h1 h2
                  exact ⟨h1, h2⟩
                exact ⟨rfl, rfl, rfl, ckRes res vid c created, rfl, rfl, by simp [ckRes], by
                  simp [ckRes, hc]⟩
              · simp at h
          · intro vid' res' h
            rw [show (vpcPhase ec2 rid req res created s).1 =
                .ok (vid, ckRes res vid c created) by
              simp [vpcPhase, hc, hcv, tagCall, hct, hwr, ckRes]] at h
            obtain ⟨rfl, rfl⟩ : vid = vid' ∧ ckRes res vid c created = res' := by
              injection h with h'
              injection h' with h1 h2
              exact ⟨h1, h2⟩
            exact ⟨by simp [ckRes], by simp [ckRes, hc], by simp [ckRes], by simp⟩
          · have hred : (vpcPhase ec2 rid req res created s).2 =
                update_fields rid { result := some (ckRes res vid c created) } sw := by
              simp [vpcPhase, hc, hcv, tagCall, hct, hwr, ckRes]
            rw [hred, itemRes_update]
            have hsw : itemRes sw.store rid = itemRes s.store rid := by
              rw [hw3]
              simp [logEv, itemRes]
            rw [hsw]
            have hlr : lastRes (([WEv.callCreateVpc c,
                WEv.callCreateTags [vid] (FIXED_TAGS ++ [("RequestId", rid)])] ++ Δw) ++
                [.write rid { result := some (ckRes res vid c created) }]) =
                some (ckRes res vid c created) := by
              rw [lastRes_append]
              simp [lastRes, oor]
            rw [hlr]

theorem statusWrites_append (A B : List WEv) :
    statusWrites (A ++ B) = statusWrites A ++ statusWrites B := by
  unfold statusWrites
  rw [List.filterMap_append]

theorem statusWrites_nil_of (Δ : List WEv)
    (h : ∀ r a, WEv.write r a ∈ Δ → a.status = none) : statusWrites Δ = [] := by
  unfold statusWrites
  rw [List.filterMap_eq_nil_iff]
  intro e he
  cases e with
  | write r a => exact h r a he
  | callCreateVpc c => rfl
  | callCreateTags rs tg => rfl
  | callDescribeVpcs v => rfl
  | callCreateSubnet v c a => rfl

theorem csk_nil_of (Δ : List WEv)
    (h : ∀ v c a, WEv.callCreateSubnet v c a ∉ Δ) : csk Δ = [] := by
  unfold csk
  rw [List.filterMap_eq_nil_iff]
  intro e he
  cases e with
  | callCreateSubnet v c a => exact absurd he (h v c a)
  | write r a => rfl
  | callCreateVpc c => rfl
  | callCreateTags rs tg => rfl
  | callDescribeVpcs v => rfl

theorem csk_append (A B : List WEv) : csk (A ++ B) = csk A ++ csk B := by
  unfold csk
  rw [List.filterMap_append]

/-- The whole `try` block: every `create_subnet` call targets an
unrecovered key; every write targets this request, writes no error, and
checkpoints a grown result; exactly one status — `CREATED` — is written,
and only on success; the stored result is the last checkpoint; under
distinct spec keys the created keys are (an initial segment of, and on
success exactly) the unrecovered spec keys in order; when the network was
not yet recovered, a checkpoint carrying `vpc_id` and the network CIDR
precedes every `create_subnet` call, and when it was recovered,
`create_vpc` is never called. -/
theorem tryBody_spec (ec2 : Ec2) (rid : String) (req : ReqSpec) (vpc_id0 : Option String)
    (current_result : ResultRec) (created : List CreatedSubnet)
    (keys : List (String × String)) (s : WState)
    (hkeys : keys = created.map subnetKey) (hres : current_result.subnets = created) :
    ∃ Δ,
      (tryBody ec2 rid req vpc_id0 current_result created keys s).2.trace = s.trace ++ Δ ∧
      (∀ v c a, WEv.callCreateSubnet v c a ∈ Δ → (c, a) ∉ keys) ∧
      (∀ r args, WEv.write r args ∈ Δ → r = rid ∧ args.error = none ∧
        ∃ rr, args.result = some rr ∧ GrownFrom created keys rr.subnets) ∧
      (∀ u, (tryBody ec2 rid req vpc_id0 current_result created keys s).1 = .ok u →
        statusWrites Δ = [.CREATED]) ∧
      (∀ e, (tryBody ec2 rid req vpc_id0 current_result created keys s).1 = .error e →
        statusWrites Δ = []) ∧
      itemRes (tryBody ec2 rid req vpc_id0 current_result created keys s).2.store rid =
        oor (lastRes Δ) (itemRes s.store rid) ∧
      ((req.subnets.map specKey).Nodup →
        ListLE (csk Δ) ((req.subnets.map specKey).filter (fun k => decide (k ∉ keys))) ∧
        (∀ u, (tryBody ec2 rid req vpc_id0 current_result created keys s).1 = .ok u →
          csk Δ = (req.subnets.map specKey).filter (fun k => decide (k ∉ keys)))) ∧
      (isFalsyStr vpc_id0 = true →
        ∀ pre v c a suf, Δ = pre ++ WEv.callCreateSubnet v c a :: suf →
          ∃ args rr, WEv.write rid args ∈ pre ∧ args.result = some rr ∧
            rr.vpc_id.isSome ∧ rr.vpc_cidr = req.vpc_cidr) ∧
      (isFalsyStr vpc_id0 = false →
        ∀ c, WEv.callCreateVpc c ∉ Δ) := by
  by_cases hf : isFalsyStr vpc_id0 = true
  · -- no recovered network: create it first
    obtain ⟨Δp, p1, p2, p3, p4, p5⟩ := vpcPhase_spec ec2 rid req current_result created s
    rcases hpr : vpcPhase ec2 rid req current_result created s with ⟨pout, sp⟩
    rw [hpr] at p1 p5
    simp at p1 p5
    rcases pout with e | vr
    · -- network creation failed before any checkpoint
      refine ⟨Δp, ?_, ?_, ?_, ?_, ?_, ?_, ?_, ?_, ?_⟩
      · rw [show (tryBody ec2 rid req vpc_id0 current_result created keys s).2 = sp by
          simp [tryBody, hf, hpr]]
        exact p1
      · intro v c a hm
        exact absurd hm (p2 v c a)
      · intro r args hm
        obtain ⟨hr, hs, he, rr, hrr, hsub, -, -⟩ := p3 r args hm
        exact ⟨hr, he, rr, hrr, hsub ▸ GrownFrom.refl created keys⟩
      · intro u h
        rw [show (tryBody ec2 rid req vpc_id0 current_result created keys s).1 = .error e by
          simp [tryBody, hf, hpr]] at h
        cases h
      · intro e' h
        refine statusWrites_nil_of Δp fun r a hm => (p3 r a hm).2.1
      · rw [show (tryBody ec2 rid req vpc_id0 current_result created keys s).2 = sp by
          simp [tryBody, hf, hpr]]
        exact p5
      · intro hW
        refine ⟨?_, ?_⟩
        · rw [csk_nil_of Δp fun v c a hm => (p2 v c a) hm]
          exact ⟨_, rfl⟩
        · intro u h
          rw [show (tryBody ec2 rid req vpc_id0 current_result created keys s).1 = .error e by
            simp [tryBody, hf, hpr]] at h
          cases h
      · intro _ pre v c a suf hsplit
        have hin : WEv.callCreateSubnet v c a ∈ Δp := by
          rw [hsplit]
          exact List.mem_append_right pre (List.mem_cons_self _ _)
        exact absurd hin (p2 v c a)
      · intro hff
        rw [hf] at hff
        cases hff
    · -- network created and checkpointed; run the subnet loop
      obtain ⟨vid', res'⟩ := vr
      obtain ⟨hri, hrc, hrs, hckmem⟩ := p4 vid' res' (by rw [hpr])
      obtain ⟨Δl, l1, l2, l3, l4, l5, l6, l7⟩ :=
        subnetLoop_spec ec2 rid vid' req.subnets created keys res' sp hkeys hrs
      rcases hlr : subnetLoop ec2 rid vid' req.subnets created keys res' sp with ⟨lout, sl⟩
      rw [hlr] at l1 l5 l6
      simp at l1 l5 l6
      have hcknotcs : ∀ v c a, WEv.callCreateSubnet v c a ∉ Δp := p2
      rcases lout with e | resF
      · -- a subnet step failed
        refine ⟨Δp ++ Δl, ?_, ?_, ?_, ?_, ?_, ?_, ?_, ?_, ?_⟩
        · rw [show (tryBody ec2 rid req vpc_id0 current_result created keys s).2 = sl by
            simp [tryBody, hf, hpr, hlr]]
          rw [l1, p1, List.append_assoc]
        · intro v c a hm
          rcases List.mem_append.mp hm with h | h
          · exact absurd h (p2 v c a)
          · exact (l2 v c a h).2
        · intro r args hm
          rcases List.mem_append.mp hm with h | h
          · obtain ⟨hr, hs, he, rr, hrr, hsub, -, -⟩ := p3 r args h
            exact ⟨hr, he, rr, hrr, hsub ▸ GrownFrom.refl created keys⟩
          · obtain ⟨hr, hs, he, rr, hrr, hg⟩ := l4 r args h
            exact ⟨hr, he, rr, hrr, hg⟩
        · intro u h
          rw [show (tryBody ec2 rid req vpc_id0 current_result created keys s).1 = .error e by
            simp [tryBody, hf, hpr, hlr]] at h
          cases h
        · intro e' h
          rw [statusWrites_append]
          rw [statusWrites_nil_of Δp fun r a hm => (p3 r a hm).2.1,
            statusWrites_nil_of Δl fun r a hm => (l4 r a hm).2.1]
          rfl
        · rw [show (tryBody ec2 rid req vpc_id0 current_result created keys s).2 = sl by
            simp [tryBody, hf, hpr, hlr]]
          rw [l6, p5, lastRes_append, oor_assoc]
        · intro hW
          obtain ⟨hl7a, -⟩ := l7 hW
          refine ⟨?_, ?_⟩
          · rw [csk_append, csk_nil_of Δp hcknotcs, List.nil_append]
            exact hl7a
          · intro u h
            rw [show (tryBody ec2 rid req vpc_id0 current_result created keys s).1 = .error e by
              simp [tryBody, hf, hpr, hlr]] at h
            cases h
        · intro _ pre v c a suf hsplit
          obtain ⟨pre', rfl⟩ := split_after Δp hsplit (p2 v c a)
          exact ⟨{ result := some res' }, res', List.mem_append_left _ hckmem, rfl,
            by rw [hri]; rfl, hrc⟩
        · intro hff
          rw [hf] at hff
          cases hff
      · -- every subnet done: final CREATED write
        have houtred : tryBody ec2 rid req vpc_id0 current_result created keys s =
            (.ok (), update_fields rid { status := some .CREATED, result := some resF } sl) := by
          simp [tryBody, hf, hpr, hlr]
        have hgF : GrownFrom created keys resF.subnets := l5 resF rfl
        refine ⟨Δp ++ Δl ++ [.write rid { status := some .CREATED, result := some resF }],
          ?_, ?_, ?_, ?_, ?_, ?_, ?_, ?_, ?_⟩
        · have h2eq : (tryBody ec2 rid req vpc_id0 current_result created keys s).2 =
              update_fields rid { status := some .CREATED, result := some resF } sl := by
            rw [houtred]
          rw [h2eq, trace_update, l1, p1]
          simp
        · intro v c a hm
          rcases List.mem_append.mp hm with h | h
          · rcases List.mem_append.mp h with h | h
            · exact absurd h (p2 v c a)
            · exact (l2 v c a h).2
          · simp at h
        · intro r args hm
          rcases List.mem_append.mp hm with h | h
          · rcases List.mem_append.mp h with h | h
            · obtain ⟨hr, hs, he, rr, hrr, hsub, -, -⟩ := p3 r args h
              exact ⟨hr, he, rr, hrr, hsub ▸ GrownFrom.refl created keys⟩
            · obtain ⟨hr, hs, he, rr, hrr, hg⟩ := l4 r args h
              exact ⟨hr, he, rr, hrr, hg⟩
          · rcases List.mem_cons.mp h with h | h
            · obtain ⟨rfl, rfl⟩ : rid = r ∧ _ = args := by
                injection h.symm with h1 h2
                exact ⟨h1, h2⟩
              exact ⟨rfl, rfl, resF, rfl, hgF⟩
            · simp at h
        · intro u h
          rw [statusWrites_append, statusWrites_append]
          rw [statusWrites_nil_of Δp fun r a hm => (p3 r a hm).2.1,
            statusWrites_nil_of Δl fun r a hm => (l4 r a hm).2.1]
          rfl
        · intro e' h
          rw [houtred] at h
          cases h
        · have h2eq : (tryBody ec2 rid req vpc_id0 current_result created keys s).2 =
              update_fields rid { status := some .CREATED, result := some resF } sl := by
            rw [houtred]
          rw [h2eq, itemRes_update, lastRes_append]
          have hone : lastRes [WEv.write rid { status := some .CREATED, result := some resF }] =
              some resF := by
            simp [lastRes]
          rw [hone]
          simp [oor]
        · intro hW
          obtain ⟨hl7a, hl7b⟩ := l7 hW
          have hcskeq : csk (Δp ++ Δl ++
              [WEv.write rid { status := some .CREATED, result := some resF }]) = csk Δl := by
            rw [csk_append, csk_append, csk_nil_of Δp hcknotcs]
            simp [csk]
          refine ⟨?_, ?_⟩
          · rw [hcskeq]
            exact hl7a
          · intro u h
            rw [hcskeq]
            exact hl7b resF (by rw [hlr])
        · intro _ pre v c a suf hsplit
          rw [List.append_assoc] at hsplit
          obtain ⟨pre', rfl⟩ := split_after Δp hsplit (p2 v c a)
          exact ⟨{ result := some res' }, res', List.mem_append_left _ hckmem, rfl,
            by rw [hri]; rfl, hrc⟩
        · intro hff
          rw [hf] at hff
          cases hff
  · -- the network was already recovered: straight to the subnet loop
    have hf' : isFalsyStr vpc_id0 = false := by
      cases h : isFalsyStr vpc_id0
      · rfl
      · exact absurd h hf
    obtain ⟨Δl, l1, l2, l3, l4, l5, l6, l7⟩ :=
      subnetLoop_spec ec2 rid (vpc_id0.getD "") req.subnets created keys current_result s
        hkeys hres
    rcases hlr : subnetLoop ec2 rid (vpc_id0.getD "") req.subnets created keys current_result s
      with ⟨lout, sl⟩
    rw [hlr] at l1 l5 l6
    simp at l1 l5 l6
    rcases lout with e | resF
    · refine ⟨Δl, ?_, ?_, ?_, ?_, ?_, ?_, ?_, ?_, ?_⟩
      · rw [show (tryBody ec2 rid req vpc_id0 current_result created keys s).2 = sl by
          simp [tryBody, hf', hlr]]
        exact l1
      · intro v c a hm
        exact (l2 v c a hm).2
      · intro r args hm
        obtain ⟨hr, hs, he, rr, hrr, hg⟩ := l4 r args hm
        exact ⟨hr, he, rr, hrr, hg⟩
      · intro u h
        rw [show (tryBody ec2 rid req vpc_id0 current_result created keys s).1 = .error e by
          simp [tryBody, hf', hlr]] at h
        cases h
      · intro e' h
        exact statusWrites_nil_of Δl fun r a hm => (l4 r a hm).2.1
      · rw [show (tryBody ec2 rid req vpc_id0 current_result created keys s).2 = sl by
          simp [tryBody, hf', hlr]]
        exact l6
      · intro hW
        obtain ⟨hl7a, -⟩ := l7 hW
        refine ⟨hl7a, ?_⟩
        intro u h
        rw [show (tryBody ec2 rid req vpc_id0 current_result created keys s).1 = .error e by
          simp [tryBody, hf', hlr]] at h
        cases h
      · intro hft
        rw [hf'] at hft
        cases hft
      · intro _ c hm
        exact absurd hm (l3 c)
    · have houtred : tryBody ec2 rid req vpc_id0 current_result created keys s =
          (.ok (), update_fields rid { status := some .CREATED, result := some resF } sl) := by
        simp [tryBody, hf', hlr]
      have hgF : GrownFrom created keys resF.subnets := l5 resF rfl
      refine ⟨Δl ++ [.write rid { status := some .CREATED, result := some resF }],
        ?_, ?_, ?_, ?_, ?_, ?_, ?_, ?_, ?_⟩
      · have h2eq : (tryBody ec2 rid req vpc_id0 current_result created keys s).2 =
            update_fields rid { status := some .CREATED, result := some resF } sl := by
          rw [houtred]
        rw [h2eq, trace_update, l1]
        simp
      · intro v c a hm
        rcases List.mem_append.mp hm with h | h
        · exact (l2 v c a h).2
        · simp at h
      · intro r args hm
        rcases List.mem_append.mp hm with h | h
        · obtain ⟨hr, hs, he, rr, hrr, hg⟩ := l4 r args h
          exact ⟨hr, he, rr, hrr, hg⟩
        · rcases List.mem_cons.mp h with h | h
          · obtain ⟨rfl, rfl⟩ : rid = r ∧ _ = args := by
              injection h.symm with h1 h2
              exact ⟨h1, h2⟩
            exact ⟨rfl, rfl, resF, rfl, hgF⟩
          · simp at h
      · intro u h
        rw [statusWrites_append]
        rw [statusWrites_nil_of Δl fun r a hm => (l4 r a hm).2.1]
        rfl
      · intro e' h
        rw [houtred] at h
        cases h
      · have h2eq : (tryBody ec2 rid req vpc_id0 current_result created keys s).2 =
            update_fields rid { status := some .CREATED, result := some resF } sl := by
          rw [houtred]
        rw [h2eq, itemRes_update, lastRes_append]
        have hone : lastRes [WEv.write rid { status := some .CREATED, result := some resF }] =
            some resF := by
          simp [lastRes]
        rw [hone]
        simp [oor]
      · intro hW
        obtain ⟨hl7a, hl7b⟩ := l7 hW
        have hcskeq : csk (Δl ++
            [WEv.write rid { status := some .CREATED, result := some resF }]) = csk Δl := by
          rw [csk_append]
          simp [csk]
        refine ⟨by rw [hcskeq]; exact hl7a, ?_⟩
        intro u h
        rw [hcskeq]
        exact hl7b resF (by rw [hlr])
      · intro hft
        rw [hf'] at hft
        cases hft
      · intro _ c hm
        rcases List.mem_append.mp hm with h | h
        · exact absurd h (l3 c)
        · simp at h

theorem lastRes_mem (Δ : List WEv) (rr : ResultRec) (h : lastRes Δ = some rr) :
    ∃ r args, WEv.write r args ∈ Δ ∧ args.result = some rr := by
  unfold lastRes at h
  obtain ⟨hne, heq⟩ := List.mem_getLast?_eq_getLast (Option.mem_def.mpr h)
  have hmem : rr ∈ Δ.filterMap
      (fun e => match e with | WEv.write _ a => a.result | _ => none) := by
    rw [heq]
    exact List.getLast_mem hne
  obtain ⟨e, he, hfe⟩ := List.mem_filterMap.mp hmem
  cases e with
  | write r a => exact ⟨r, a, he, hfe⟩
  | callCreateVpc c => cases hfe
  | callCreateTags x y => cases hfe
  | callDescribeVpcs v => cases hfe
  | callCreateSubnet v c a => cases hfe

/-- The behaviour of one `handle_request` run on a well-typed, non-terminal
request record of at most `MAX_SUBNETS` subnets, stated against the record
as loaded: its recovered result `item.result`, recovered created-key set,
and spec `item.request`. -/
theorem handleRequest_spec (ec2 : Ec2) (rid : String) (s : WState) (item : Item)
    (hget : sget s.store rid = some item)
    (htype : item.type = some "VPC_REQUEST")
    (hterm : terminalStatus item.status = false)
    (hcount : (item.request.getD {}).subnets.length ≤ MAX_SUBNETS) :
    ∃ Δ,
      (handle_request ec2 rid s).2.trace = s.trace ++ Δ ∧
      (∀ v c a, WEv.callCreateSubnet v c a ∈ Δ →
        (c, a) ∉ (item.result.getD {}).subnets.map subnetKey) ∧
      (∀ r args, WEv.write r args ∈ Δ → r = rid ∧
        ∀ rr, args.result = some rr →
          GrownFrom (item.result.getD {}).subnets
            ((item.result.getD {}).subnets.map subnetKey) rr.subnets) ∧
      (∀ u, (handle_request ec2 rid s).1 = .ok u →
        statusWrites Δ = [.IN_PROGRESS, .CREATED]) ∧
      (∀ e, (handle_request ec2 rid s).1 = .error e →
        statusWrites Δ = [.IN_PROGRESS, .FAILED] ∧
        (∃ Δ0, Δ = Δ0 ++ [.write rid { status := some .FAILED, error := some e }] ∧
          itemRes (handle_request ec2 rid s).2.store rid = oor (lastRes Δ0) item.result) ∧
        ((sget (handle_request ec2 rid s).2.store rid).getD {}).status = some .FAILED ∧
        ((sget (handle_request ec2 rid s).2.store rid).getD {}).error_message = some e) ∧
      itemRes (handle_request ec2 rid s).2.store rid = oor (lastRes Δ) item.result ∧
      (((item.request.getD {}).subnets.map specKey).Nodup →
        ListLE (csk Δ) (((item.request.getD {}).subnets.map specKey).filter
          (fun k => decide (k ∉ (item.result.getD {}).subnets.map subnetKey))) ∧
        (∀ u, (handle_request ec2 rid s).1 = .ok u →
          csk Δ = ((item.request.getD {}).subnets.map specKey).filter
            (fun k => decide (k ∉ (item.result.getD {}).subnets.map subnetKey)))) ∧
      (isFalsyStr (item.result.getD {}).vpc_id = true →
        ∀ pre v c a suf, Δ = pre ++ WEv.callCreateSubnet v c a :: suf →
          ∃ args rr, WEv.write rid args ∈ pre ∧ args.result = some rr ∧
            rr.vpc_id.isSome ∧ rr.vpc_cidr = (item.request.getD {}).vpc_cidr) ∧
      (isFalsyStr (item.result.getD {}).vpc_id = false →
        ∀ c, WEv.callCreateVpc c ∉ Δ) := by
  have hcount' : ¬ (item.request.getD {}).subnets.length > MAX_SUBNETS := by omega
  have hred : handle_request ec2 rid s =
      (match tryBody ec2 rid (item.request.getD {}) (item.result.getD {}).vpc_id
          (item.result.getD {}) (item.result.getD {}).subnets
          ((item.result.getD {}).subnets.map subnetKey)
          (update_fields rid { status := some .IN_PROGRESS } s) with
        | (.ok u, s') => (.ok u, s')
        | (.error e, s') =>
          (.error e, update_fields rid { status := some .FAILED, error := some e } s')) := by
    simp [handle_request, hget, htype, hterm, hcount']
  obtain ⟨Δt, t1, t2, t3, t4, t5, t6, t7, t8, t9⟩ :=
    tryBody_spec ec2 rid (item.request.getD {}) (item.result.getD {}).vpc_id
      (item.result.getD {}) (item.result.getD {}).subnets
      ((item.result.getD {}).subnets.map subnetKey)
      (update_fields rid { status := some .IN_PROGRESS } s) rfl rfl
  rcases htr : tryBody ec2 rid (item.request.getD {}) (item.result.getD {}).vpc_id
      (item.result.getD {}) (item.result.getD {}).subnets
      ((item.result.getD {}).subnets.map subnetKey)
      (update_fields rid { status := some .IN_PROGRESS } s) with ⟨tout, st⟩
  rw [htr] at t1 t6
  simp at t1 t6
  have hbase : itemRes s.store rid = item.result := by
    unfold itemRes
    rw [hget]
    rfl
  have hs1res : itemRes (update_fields rid { status := some .IN_PROGRESS } s).store rid =
      item.result := by
    rw [itemRes_update, hbase]
    rfl
  have hs1tr : (update_fields rid { status := some .IN_PROGRESS } s).trace =
      s.trace ++ [.write rid { status := some .IN_PROGRESS }] := rfl
  rcases tout with e | u
  · -- the try block raised: the FAILED update, then the re-raise
    have hout : handle_request ec2 rid s =
        (.error e, update_fields rid { status := some .FAILED, error := some e } st) := by
      rw [hred, htr]
    refine ⟨.write rid { status := some .IN_PROGRESS } :: Δt ++
      [.write rid { status := some .FAILED, error := some e }], ?_, ?_, ?_, ?_, ?_, ?_, ?_, ?_, ?_⟩
    · rw [hout, trace_update, t1, hs1tr]
      simp
    · intro v c a hm
      rcases List.mem_append.mp hm with h | h
      · rcases List.mem_cons.mp h with h | h
        · cases h
        · exact t2 v c a h
      · simp at h
    · intro r args hm
      rcases List.mem_append.mp hm with h | h
      · rcases List.mem_cons.mp h with h | h
        · obtain ⟨rfl, rfl⟩ : rid = r ∧ _ = args := by
            injection h.symm with h1 h2
            exact ⟨h1, h2⟩
          refine ⟨rfl, ?_⟩
          intro rr hrr
          cases hrr
        · obtain ⟨hr, -, rr', hrr', hg⟩ := t3 r args h
          refine ⟨hr, ?_⟩
          intro rr hrr
          rw [hrr] at hrr'
          injection hrr' with h'
          exact h' ▸ hg
      · rcases List.mem_cons.mp h with h | h
        · obtain ⟨rfl, rfl⟩ : rid = r ∧ _ = args := by
            injection h.symm with h1 h2
            exact ⟨h1, h2⟩
          refine ⟨rfl, ?_⟩
          intro rr hrr
          cases hrr
        · simp at h
    · intro u h
      rw [hout] at h
      cases h
    · intro e' h
      have he' : e' = e := by
        rw [hout] at h
        injection h with h'
        exact h'.symm
      rw [he']
      have hsw : statusWrites (WEv.write rid { status := some Status.IN_PROGRESS } :: Δt ++
          [WEv.write rid { status := some Status.FAILED, error := some e }]) =
          [Status.IN_PROGRESS, Status.FAILED] := by
        have : WEv.write rid { status := some Status.IN_PROGRESS } :: Δt ++
            [WEv.write rid { status := some Status.FAILED, error := some e }] =
            ([WEv.write rid { status := some Status.IN_PROGRESS }] ++ Δt) ++
            [WEv.write rid { status := some Status.FAILED, error := some e }] := by
          simp
        rw [this, statusWrites_append, statusWrites_append, t5 e (by rw [htr])]
        rfl
      refine ⟨hsw, ⟨.write rid { status := some .IN_PROGRESS } :: Δt, by simp, ?_⟩, ?_, ?_⟩
      · rw [hout]
        show itemRes (update_fields rid
            { status := some .FAILED, error := some e } st).store rid = _
        rw [itemRes_update, t6, hs1res]
        have hlr0 : lastRes (WEv.write rid { status := some Status.IN_PROGRESS } :: Δt) =
            lastRes Δt := by
          have : WEv.write rid { status := some Status.IN_PROGRESS } :: Δt =
              [WEv.write rid { status := some Status.IN_PROGRESS }] ++ Δt := rfl
          rw [this, lastRes_append]
          cases h' : lastRes Δt <;> simp [oor, lastRes]
        rw [hlr0]
        simp [oor]
      · rw [hout]
        show ((sget (update_fields rid
          { status := some .FAILED, error := some e } st).store rid).getD {}).status =
          some .FAILED
        unfold update_fields
        rw [sget_sput_same]
        rfl
      · rw [hout]
        show ((sget (update_fields rid
          { status := some .FAILED, error := some e } st).store rid).getD {}).error_message =
          some e
        unfold update_fields
        rw [sget_sput_same]
        rfl
    · rw [hout]
      show itemRes (update_fields rid
          { status := some .FAILED, error := some e } st).store rid = _
      rw [itemRes_update, t6, hs1res]
      have hlr : lastRes (WEv.write rid { status := some Status.IN_PROGRESS } :: Δt ++
          [WEv.write rid { status := some Status.FAILED, error := some e }]) =
          lastRes Δt := by
        have : WEv.write rid { status := some Status.IN_PROGRESS } :: Δt ++
            [WEv.write rid { status := some Status.FAILED, error := some e }] =
            ([WEv.write rid { status := some Status.IN_PROGRESS }] ++ Δt) ++
            [WEv.write rid { status := some Status.FAILED, error := some e }] := by
          simp
        rw [this, lastRes_append, lastRes_append]
        have h1 : lastRes [WEv.write rid { status := some Status.FAILED, error := some e }] =
            none := by
          simp [lastRes]
        have h2 : lastRes [WEv.write rid { status := some Status.IN_PROGRESS }] = none := by
          simp [lastRes]
        rw [h1, h2]
        cases h' : lastRes Δt <;> simp [oor]
      rw [hlr]
      simp [oor]
    · intro hW
      obtain ⟨h7a, h7b⟩ := t7 hW
      have hcsk : csk (WEv.write rid { status := some Status.IN_PROGRESS } :: Δt ++
          [WEv.write rid { status := some Status.FAILED, error := some e }]) = csk Δt := by
        have : WEv.write rid { status := some Status.IN_PROGRESS } :: Δt ++
            [WEv.write rid { status := some Status.FAILED, error := some e }] =
            ([WEv.write rid { status := some Status.IN_PROGRESS }] ++ Δt) ++
            [WEv.write rid { status := some Status.FAILED, error := some e }] := by
          simp
        rw [this, csk_append, csk_append]
        simp [csk]
      refine ⟨by rw [hcsk]; exact h7a, ?_⟩
      intro u h
      rw [hout] at h
      cases h
    · intro hfal pre v c a suf hsplit
      have hw1 : .callCreateSubnet v c a ∉
          [WEv.write rid { status := some (Status.IN_PROGRESS) }] := by simp
      have hsplit' : [WEv.write rid { status := some (Status.IN_PROGRESS) }] ++
          (Δt ++ [WEv.write rid { status := some Status.FAILED, error := some e }]) =
          pre ++ WEv.callCreateSubnet v c a :: suf := by
        rw [← hsplit]
        simp
      obtain ⟨pre', rfl⟩ := split_after _ hsplit' hw1
      have hsplit2 : Δt ++ [WEv.write rid { status := some Status.FAILED, error := some e }] =
          pre' ++ WEv.callCreateSubnet v c a :: suf := by
        have := hsplit'
        rw [List.append_assoc] at this
        exact List.append_cancel_left this
      have hw2 : WEv.callCreateSubnet v c a ∉
          [WEv.write rid { status := some Status.FAILED, error := some e }] := by simp
      obtain ⟨suf', hsuf⟩ := split_before Δt hsplit2 hw2
      obtain ⟨args, rr, hmem, hres, hsome, hcidr⟩ := t8 hfal pre' v c a suf' hsuf
      exact ⟨args, rr, List.mem_append_right _ hmem, hres, hsome, hcidr⟩
    · intro hfal c hm
      rcases List.mem_append.mp hm with h | h
      · rcases List.mem_cons.mp h with h | h
        · cases h
        · exact absurd h (t9 hfal c)
      · simp at h
  · -- the try block finished: CREATED was written inside it
    have hout : handle_request ec2 rid s = (.ok u, st) := by
      rw [hred, htr]
    refine ⟨.write rid { status := some .IN_PROGRESS } :: Δt, ?_, ?_, ?_, ?_, ?_, ?_, ?_, ?_, ?_⟩
    · rw [hout]
      show st.trace = _
      rw [t1, hs1tr]
      simp
    · intro v c a hm
      rcases List.mem_cons.mp hm with h | h
      · cases h
      · exact t2 v c a h
    · intro r args hm
      rcases List.mem_cons.mp hm with h | h
      · obtain ⟨rfl, rfl⟩ : rid = r ∧ _ = args := by
          injection h.symm with h1 h2
          exact ⟨h1, h2⟩
        refine ⟨rfl, ?_⟩
        intro rr hrr
        cases hrr
      · obtain ⟨hr, -, rr', hrr', hg⟩ := t3 r args h
        refine ⟨hr, ?_⟩
        intro rr hrr
        rw [hrr] at hrr'
        injection hrr' with h'
        exact h' ▸ hg
    · intro u' h
      have : statusWrites (WEv.write rid { status := some (Status.IN_PROGRESS) } :: Δt) =
          Status.IN_PROGRESS :: statusWrites Δt := rfl
      rw [this, t4 u (by rw [htr])]
    · intro e h
      rw [hout] at h
      cases h
    · rw [hout]
      show itemRes st.store rid = _
      rw [t6, hs1res]
      have hlr0 : lastRes (WEv.write rid { status := some Status.IN_PROGRESS } :: Δt) =
          lastRes Δt := by
        have : WEv.write rid { status := some Status.IN_PROGRESS } :: Δt =
            [WEv.write rid { status := some Status.IN_PROGRESS }] ++ Δt := rfl
        rw [this, lastRes_append]
        cases h' : lastRes Δt <;> simp [oor, lastRes]
      rw [hlr0]
    · intro hW
      obtain ⟨h7a, h7b⟩ := t7 hW
      have hcsk : csk (WEv.write rid { status := some Status.IN_PROGRESS } :: Δt) = csk Δt := by
        rfl
      refine ⟨by rw [hcsk]; exact h7a, ?_⟩
      intro u' h
      rw [hcsk]
      exact h7b u (by rw [htr])
    · intro hfal pre v c a suf hsplit
      have hw1 : WEv.callCreateSubnet v c a ∉
          [WEv.write rid { status := some (Status.IN_PROGRESS) }] := by simp
      have hsplit' : [WEv.write rid { status := some (Status.IN_PROGRESS) }] ++ Δt =
          pre ++ WEv.callCreateSubnet v c a :: suf := by
        rw [← hsplit]
        rfl
      obtain ⟨pre', rfl⟩ := split_after _ hsplit' hw1
      have hsplit2 : Δt = pre' ++ WEv.callCreateSubnet v c a :: suf := by
        have := hsplit'
        rw [List.append_assoc] at this
        exact List.append_cancel_left this
      obtain ⟨args, rr, hmem, hres, hsome, hcidr⟩ := t8 hfal pre' v c a suf hsplit2
      exact ⟨args, rr, List.mem_append_right _ hmem, hres, hsome, hcidr⟩
    · intro hfal c hm
      rcases List.mem_cons.mp hm with h | h
      · cases h
      · exact absurd h (t9 hfal c)

/-! ## The claims about the worker -/

/-- C3: for every request whose stored state is `CREATED` or `FAILED`,
`handle_request` returns immediately: it performs zero external
provisioning calls and leaves the whole state — store (so every field of
the record, `updated_at` included), queue clock and trace — exactly as it
was. -/
theorem c3_terminal_is_noop (ec2 : Ec2) (rid : String) (s : WState) (item : Item)
    (hget : sget s.store rid = some item)
    (htype : item.type = some "VPC_REQUEST")
    (hterm : terminalStatus item.status = true) :
    handle_request ec2 rid s = (.ok (), s) := by
  simp [handle_request, hget, htype, hterm]

/-- C3 witness. -/
theorem c3_terminal_is_noop_witness :
    handle_request
      { create_vpc := fun _ => .ok "vpc-1", create_subnet := fun _ _ _ => .ok "sn-1",
        create_tags := fun _ _ => .ok (), describe_vpc_state := fun _ _ => .ok "available",
        poll_fuel := 15 }
      "r1"
      ⟨[("r1", { type := some "VPC_REQUEST", status := some .CREATED })], 7, []⟩ =
      (.ok (), ⟨[("r1", { type := some "VPC_REQUEST", status := some .CREATED })], 7, []⟩) :=
  c3_terminal_is_noop _ "r1" _ { type := some "VPC_REQUEST", status := some .CREATED }
    (by decide) (by decide) (by decide)

/-- C10: on a `request_id` with no stored item, or whose stored item is not
of type `VPC_REQUEST`, `handle_request` raises before any state write: the
run returns an error and the whole state — store, clock and trace — is
untouched (in particular no external call and no `FAILED` write
happens). -/
theorem c10_missing_or_foreign_item_raises (ec2 : Ec2) (rid : String) (s : WState) :
    (sget s.store rid = none →
      handle_request ec2 rid s = (.error ("request_id not found: " ++ rid), s)) ∧
    (∀ item, sget s.store rid = some item → item.type ≠ some "VPC_REQUEST" →
      handle_request ec2 rid s = (.error ("not a VPC_REQUEST item: " ++ rid), s)) := by
  constructor
  · intro hget
    simp [handle_request, hget]
  · intro item hget htype
    simp [handle_request, hget, htype]

/-- C10 witness: an idempotency-lock row is not a `VPC_REQUEST` item. -/
theorem c10_missing_or_foreign_item_raises_witness :
    handle_request
      { create_vpc := fun _ => .ok "vpc-1", create_subnet := fun _ _ _ => .ok "sn-1",
        create_tags := fun _ _ => .ok (), describe_vpc_state := fun _ _ => .ok "available",
        poll_fuel := 15 }
      "lock#alice#tok"
      ⟨[("lock#alice#tok", { type := some "IDEMPOTENCY_LOCK", lock_request_id := some "r1" })],
        0, []⟩ =
      (.error "not a VPC_REQUEST item: lock#alice#tok",
        ⟨[("lock#alice#tok", { type := some "IDEMPOTENCY_LOCK", lock_request_id := some "r1" })],
          0, []⟩) :=
  (c10_missing_or_foreign_item_raises _ "lock#alice#tok" _).2
    { type := some "IDEMPOTENCY_LOCK", lock_request_id := some "r1" } (by decide) (by decide)

/-- C4: in a run on a well-typed, non-terminal record within the subnet
limit, if the recovered result has no usable `vpc_id` then a checkpoint
write carrying a `vpc_id` and the spec's network CIDR occurs in the trace
strictly before every `create_subnet` call; and if a `vpc_id` was
recovered, `create_vpc` is never called. -/
theorem c4_network_checkpoint_order (ec2 : Ec2) (rid : String) (s : WState) (item : Item)
    (hget : sget s.store rid = some item)
    (htype : item.type = some "VPC_REQUEST")
    (hterm : terminalStatus item.status = false)
    (hcount : (item.request.getD {}).subnets.length ≤ MAX_SUBNETS) :
    ∃ Δ, (handle_request ec2 rid s).2.trace = s.trace ++ Δ ∧
      (isFalsyStr (item.result.getD {}).vpc_id = true →
        ∀ pre v c a suf, Δ = pre ++ WEv.callCreateSubnet v c a :: suf →
          ∃ args rr, WEv.write rid args ∈ pre ∧ args.result = some rr ∧
            rr.vpc_id.isSome ∧ rr.vpc_cidr = (item.request.getD {}).vpc_cidr) ∧
      (isFalsyStr (item.result.getD {}).vpc_id = false →
        ∀ c, WEv.callCreateVpc c ∉ Δ) := by
  obtain ⟨Δ, h1, -, -, -, -, -, -, h8, h9⟩ :=
    handleRequest_spec ec2 rid s item hget htype hterm hcount
  exact ⟨Δ, h1, h8, h9⟩

/-- C5: when a run on a well-typed, non-terminal record within the subnet
limit raises (the error is re-raised to the caller, `herr`), the stored
record ends `FAILED` with the error text persisted verbatim, the final
trace ends with the `FAILED` update — which writes only `status` and
`error_message` (its `result` argument is `none`, and `updated_at` is
always stamped) — and the stored `result` still equals the last
checkpoint of the run (or the recovered one if none happened): the
previously checkpointed progress is intact. -/
theorem c5_failure_writes_failed_and_keeps_result (ec2 : Ec2) (rid : String) (s : WState)
    (item : Item) (e : String)
    (hget : sget s.store rid = some item)
    (htype : item.type = some "VPC_REQUEST")
    (hterm : terminalStatus item.status = false)
    (hcount : (item.request.getD {}).subnets.length ≤ MAX_SUBNETS)
    (herr : (handle_request ec2 rid s).1 = .error e) :
    ((sget (handle_request ec2 rid s).2.store rid).getD {}).status = some .FAILED ∧
    ((sget (handle_request ec2 rid s).2.store rid).getD {}).error_message = some e ∧
    ∃ Δ Δ0, (handle_request ec2 rid s).2.trace = s.trace ++ Δ ∧
      Δ = Δ0 ++ [.write rid { status := some .FAILED, error := some e }] ∧
      statusWrites Δ = [.IN_PROGRESS, .FAILED] ∧
      itemRes (handle_request ec2 rid s).2.store rid = oor (lastRes Δ0) item.result := by
  obtain ⟨Δ, h1, -, -, -, h5, -, -, -, -⟩ :=
    handleRequest_spec ec2 rid s item hget htype hterm hcount
  obtain ⟨hsw, ⟨Δ0, hΔ0, hres⟩, hstat, herrm⟩ := h5 e herr
  exact ⟨hstat, herrm, Δ, Δ0, h1, hΔ0, hsw, hres⟩

/-- C2: a (re-)run on a well-typed request record never calls
`create_subnet` for a `(cidr, az)` already in the recovered created-set;
in a run that executes (non-terminal, within the subnet limit) and
finishes, the keys it creates are exactly the spec's subnets, in original
order, with the recovered ones skipped (and in any run an initial segment
of them); the stored `result.subnets` grows monotonically (the recovered
list is an initial segment of the final one) and its keys stay unique. -/
theorem c2_no_duplicate_subnets (ec2 : Ec2) (rid : String) (s : WState) (item : Item)
    (hget : sget s.store rid = some item)
    (htype : item.type = some "VPC_REQUEST")
    (hW : ((item.request.getD {}).subnets.map specKey).Nodup)
    (hR : ((item.result.getD {}).subnets.map subnetKey).Nodup)
    (_hne : (item.result.getD {}).subnets ≠ []) :
    ∃ Δ, (handle_request ec2 rid s).2.trace = s.trace ++ Δ ∧
      (∀ v c a, WEv.callCreateSubnet v c a ∈ Δ →
        (c, a) ∉ (item.result.getD {}).subnets.map subnetKey) ∧
      ListLE (csk Δ) (((item.request.getD {}).subnets.map specKey).filter
        (fun k => decide (k ∉ (item.result.getD {}).subnets.map subnetKey))) ∧
      (terminalStatus item.status = false →
        (item.request.getD {}).subnets.length ≤ MAX_SUBNETS →
        ∀ u, (handle_request ec2 rid s).1 = .ok u →
          csk Δ = ((item.request.getD {}).subnets.map specKey).filter
            (fun k => decide (k ∉ (item.result.getD {}).subnets.map subnetKey))) ∧
      ListLE (item.result.getD {}).subnets
        ((itemRes (handle_request ec2 rid s).2.store rid).getD {}).subnets ∧
      ((((itemRes (handle_request ec2 rid s).2.store rid).getD {}).subnets.map
        subnetKey).Nodup) := by
  by_cases hterm : terminalStatus item.status = true
  · -- terminal: the run is a no-op
    have hout : handle_request ec2 rid s = (.ok (), s) := by
      simp [handle_request, hget, htype, hterm]
    refine ⟨[], by simp [hout], by simp, ListLE_nil _, ?_, ?_, ?_⟩
    · intro hterm' hcount u h
      rw [hterm'] at hterm
      cases hterm
    · rw [hout]
      show ListLE _ ((itemRes s.store rid).getD {}).subnets
      unfold itemRes
      rw [hget]
      exact ListLE.refl' _
    · rw [hout]
      show ((((itemRes s.store rid).getD {}).subnets.map subnetKey).Nodup)
      unfold itemRes
      rw [hget]
      exact hR
  · have hterm' : terminalStatus item.status = false := by
      cases h : terminalStatus item.status
      · rfl
      · exact absurd h hterm
    by_cases hcount : (item.request.getD {}).subnets.length ≤ MAX_SUBNETS
    · obtain ⟨Δ, h1, h2, h3, -, -, h6, h7, -, -⟩ :=
        handleRequest_spec ec2 rid s item hget htype hterm' hcount
      obtain ⟨h7a, h7b⟩ := h7 hW
      refine ⟨Δ, h1, h2, h7a, fun _ _ => h7b, ?_, ?_⟩
      · rcases hlast : lastRes Δ with - | rr
        · rw [hlast] at h6
          have h6' : itemRes (handle_request ec2 rid s).2.store rid = item.result := h6
          rw [h6']
          exact ListLE.refl' _
        · rw [hlast] at h6
          have h6' : itemRes (handle_request ec2 rid s).2.store rid = some rr := h6
          rw [h6']
          obtain ⟨r, args, hmem, hargs⟩ := lastRes_mem Δ rr hlast
          obtain ⟨-, hgr⟩ := h3 r args hmem
          exact (hgr rr hargs).listLE
      · rcases hlast : lastRes Δ with - | rr
        · rw [hlast] at h6
          have h6' : itemRes (handle_request ec2 rid s).2.store rid = item.result := h6
          rw [h6']
          exact hR
        · rw [hlast] at h6
          have h6' : itemRes (handle_request ec2 rid s).2.store rid = some rr := h6
          rw [h6']
          obtain ⟨r, args, hmem, hargs⟩ := lastRes_mem Δ rr hlast
          obtain ⟨-, hgr⟩ := h3 r args hmem
          exact (hgr rr hargs).nodup hR
    · -- over-limit record: the defensive FAILED write, nothing else
      have hcount' : (item.request.getD {}).subnets.length > MAX_SUBNETS := by omega
      have hout : handle_request ec2 rid s = (.ok (), update_fields rid
          { status := some .FAILED
            error := some ("Too many subnets: " ++
              toString (item.request.getD {}).subnets.length ++
              " (max " ++ toString MAX_SUBNETS ++ ")") } s) := by
        simp [handle_request, hget, htype, hterm', hcount']
      refine ⟨[.write rid
        { status := some .FAILED
          error := some ("Too many subnets: " ++
            toString (item.request.getD {}).subnets.length ++
            " (max " ++ toString MAX_SUBNETS ++ ")") }], ?_, by simp, ?_, ?_, ?_, ?_⟩
      · rw [hout]
        show (update_fields rid _ s).trace = _
        rw [trace_update]
      · exact ListLE_nil _
      · intro hterm'' hcount'' u h
        omega
      · rw [hout]
        show ListLE _ ((itemRes (update_fields rid _ s).store rid).getD {}).subnets
        rw [itemRes_update]
        show ListLE _ ((oor none (itemRes s.store rid)).getD {}).subnets
        unfold itemRes
        rw [hget]
        exact ListLE.refl' _
      · rw [hout]
        show ((((itemRes (update_fields rid _ s).store rid).getD {}).subnets.map
          subnetKey).Nodup)
        rw [itemRes_update]
        show ((((oor none (itemRes s.store rid)).getD {}).subnets.map subnetKey).Nodup)
        unfold itemRes
        rw [hget]
        exact hR

/-! ## Concrete fixtures used by witnesses and counterexamples -/

def demoEc2 : Ec2 :=
  { create_vpc := fun _ => .ok "vpc-1"
    create_subnet := fun _ _ a => .ok ("sn-" ++ a)
    create_tags := fun _ _ => .ok ()
    describe_vpc_state := fun _ _ => .ok "available"
    poll_fuel := 1 }

def failEc2 : Ec2 :=
  { create_vpc := fun _ => .ok "vpc-1"
    create_subnet := fun _ _ _ => .error "boom"
    create_tags := fun _ _ => .ok ()
    describe_vpc_state := fun _ _ => .ok "available"
    poll_fuel := 1 }

def demoSpec : ReqSpec :=
  { vpc_cidr := some "10.0.0.0/16"
    subnets := [⟨"10.0.1.0/24", "zone-a", none⟩, ⟨"10.0.2.0/24", "zone-b", none⟩,
      ⟨"10.0.3.0/24", "zone-c", none⟩] }

/-- A record interrupted after the network and two of three subnets. -/
def demoPartial : Item :=
  { type := some "VPC_REQUEST"
    status := some .IN_PROGRESS
    request := some demoSpec
    result := some
      { vpc_id := some "vpc-1"
        vpc_cidr := some "10.0.0.0/16"
        subnets := [⟨"sn-a", "10.0.1.0/24", "zone-a", none⟩,
          ⟨"sn-b", "10.0.2.0/24", "zone-b", none⟩] } }

def demoQueued : Item :=
  { type := some "VPC_REQUEST"
    status := some .QUEUED
    request := some demoSpec }

/-- A (hypothetical, never intake-created) record with 11 subnets. -/
def demoBig : Item :=
  { type := some "VPC_REQUEST"
    status := some .QUEUED
    request := some
      { vpc_cidr := some "10.0.0.0/16"
        subnets := (List.range 11).map fun i =>
          ⟨"10.0." ++ toString i ++ ".0/24", "zone-a", none⟩ } }

/-- C2 witness: a resumed run on the partially completed record. -/
theorem c2_no_duplicate_subnets_witness :
    (sget ([("r1", demoPartial)] : Store) "r1" = some demoPartial ∧
      demoPartial.type = some "VPC_REQUEST" ∧
      ((demoPartial.request.getD {}).subnets.map specKey).Nodup ∧
      ((demoPartial.result.getD {}).subnets.map subnetKey).Nodup ∧
      (demoPartial.result.getD {}).subnets ≠ []) ∧
    (∃ Δ, (handle_request demoEc2 "r1" ⟨[("r1", demoPartial)], 0, []⟩).2.trace =
        ([] : List WEv) ++ Δ ∧
      (∀ v c a, WEv.callCreateSubnet v c a ∈ Δ →
        (c, a) ∉ (demoPartial.result.getD {}).subnets.map subnetKey) ∧
      ListLE (csk Δ) (((demoPartial.request.getD {}).subnets.map specKey).filter
        (fun k => decide (k ∉ (demoPartial.result.getD {}).subnets.map subnetKey))) ∧
      (terminalStatus demoPartial.status = false →
        (demoPartial.request.getD {}).subnets.length ≤ MAX_SUBNETS →
        ∀ u, (handle_request demoEc2 "r1" ⟨[("r1", demoPartial)], 0, []⟩).1 = .ok u →
          csk Δ = ((demoPartial.request.getD {}).subnets.map specKey).filter
            (fun k => decide (k ∉ (demoPartial.result.getD {}).subnets.map subnetKey))) ∧
      ListLE (demoPartial.result.getD {}).subnets
        ((itemRes (handle_request demoEc2 "r1" ⟨[("r1", demoPartial)], 0, []⟩).2.store
          "r1").getD {}).subnets ∧
      ((((itemRes (handle_request demoEc2 "r1" ⟨[("r1", demoPartial)], 0, []⟩).2.store
        "r1").getD {}).subnets.map subnetKey).Nodup)) :=
  ⟨⟨by decide, by decide, by decide, by decide, by decide⟩,
    c2_no_duplicate_subnets demoEc2 "r1" ⟨[("r1", demoPartial)], 0, []⟩ demoPartial
      (by decide) (by decide) (by decide) (by decide) (by decide)⟩

/-- C4 witness: a fresh run (no recovered network) on a `QUEUED` record. -/
theorem c4_network_checkpoint_order_witness :
    (sget ([("r1", demoQueued)] : Store) "r1" = some demoQueued ∧
      demoQueued.type = some "VPC_REQUEST" ∧
      terminalStatus demoQueued.status = false ∧
      (demoQueued.request.getD {}).subnets.length ≤ MAX_SUBNETS) ∧
    (∃ Δ, (handle_request demoEc2 "r1" ⟨[("r1", demoQueued)], 0, []⟩).2.trace =
        ([] : List WEv) ++ Δ ∧
      (isFalsyStr (demoQueued.result.getD {}).vpc_id = true →
        ∀ pre v c a suf, Δ = pre ++ WEv.callCreateSubnet v c a :: suf →
          ∃ args rr, WEv.write "r1" args ∈ pre ∧ args.result = some rr ∧
            rr.vpc_id.isSome ∧ rr.vpc_cidr = (demoQueued.request.getD {}).vpc_cidr) ∧
      (isFalsyStr (demoQueued.result.getD {}).vpc_id = false →
        ∀ c, WEv.callCreateVpc c ∉ Δ)) :=
  ⟨⟨by decide, by decide, by decide, by decide⟩,
    c4_network_checkpoint_order demoEc2 "r1" ⟨[("r1", demoQueued)], 0, []⟩ demoQueued
      (by decide) (by decide) (by decide) (by decide)⟩

/-- C5 witness: the third subnet fails; the record ends `FAILED` with the
error text and the checkpointed result intact. -/
theorem c5_failure_writes_failed_and_keeps_result_witness :
    (sget ([("r1", demoPartial)] : Store) "r1" = some demoPartial ∧
      demoPartial.type = some "VPC_REQUEST" ∧
      terminalStatus demoPartial.status = false ∧
      (demoPartial.request.getD {}).subnets.length ≤ MAX_SUBNETS ∧
      (handle_request failEc2 "r1" ⟨[("r1", demoPartial)], 0, []⟩).1 = .error "boom") ∧
    (((sget (handle_request failEc2 "r1" ⟨[("r1", demoPartial)], 0, []⟩).2.store
        "r1").getD {}).status = some .FAILED ∧
      ((sget (handle_request failEc2 "r1" ⟨[("r1", demoPartial)], 0, []⟩).2.store
        "r1").getD {}).error_message = some "boom" ∧
      ∃ Δ Δ0,
        (handle_request failEc2 "r1" ⟨[("r1", demoPartial)], 0, []⟩).2.trace =
          ([] : List WEv) ++ Δ ∧
        Δ = Δ0 ++ [.write "r1" { status := some .FAILED, error := some "boom" }] ∧
        statusWrites Δ = [.IN_PROGRESS, .FAILED] ∧
        itemRes (handle_request failEc2 "r1" ⟨[("r1", demoPartial)], 0, []⟩).2.store "r1" =
          oor (lastRes Δ0) demoPartial.result) :=
  ⟨⟨by decide, by decide, by decide, by decide, by rfl⟩,
    c5_failure_writes_failed_and_keeps_result failEc2 "r1" ⟨[("r1", demoPartial)], 0, []⟩
      demoPartial "boom" (by decide) (by decide) (by decide) (by decide) (by rfl)⟩

def statusRank : Status → Nat
  | .QUEUED => 0
  | .IN_PROGRESS => 1
  | .CREATED => 2
  | .FAILED => 2

/-- The rank of the stored (optional) status; an absent status behaves like
`QUEUED`. -/
def statusRankO : Option Status → Nat
  | none => 0
  | some st => statusRank st

/-- C6 counterexample: on a (hypothetically stored) 11-subnet `QUEUED`
record, the worker's defensive count re-check writes `FAILED` directly —
the status-write sequence of the run is `[FAILED]`, entering a terminal
state without ever writing `IN_PROGRESS`, so the claim that every
transition into a terminal state passes through `IN_PROGRESS` first is
false as stated. -/
theorem c6_counterexample :
    demoBig.status = some .QUEUED ∧
    statusWrites (handle_request demoEc2 "r1" ⟨[("r1", demoBig)], 0, []⟩).2.trace =
      [.FAILED] ∧
    Status.IN_PROGRESS ∉
      statusWrites (handle_request demoEc2 "r1" ⟨[("r1", demoBig)], 0, []⟩).2.trace := by
  decide

/-- C6 amended: on records the intake can actually create (type
`VPC_REQUEST`, at most `MAX_SUBNETS` subnets) the request only moves
forward along QUEUED → IN_PROGRESS → {CREATED, FAILED}: a terminal record
is never touched again (the run changes nothing), a non-terminal run
writes exactly the status sequence `[IN_PROGRESS, CREATED]` or
`[IN_PROGRESS, FAILED]` — non-decreasing in rank from the loaded status,
with every terminal write preceded by an `IN_PROGRESS` write — and the
intake itself creates records with status `QUEUED`.  (The sole exception,
excluded here and exhibited by the counterexample, is the worker's
defensive re-check on an over-limit record, which writes `FAILED` straight
from `QUEUED`.) -/
theorem c6_forward_only_status (ec2 : Ec2) (rid : String) (s : WState) (item : Item)
    (hget : sget s.store rid = some item)
    (htype : item.type = some "VPC_REQUEST")
    (hcount : (item.request.getD {}).subnets.length ≤ MAX_SUBNETS) :
    (terminalStatus item.status = true → handle_request ec2 rid s = (.ok (), s)) ∧
    (terminalStatus item.status = false →
      ∃ Δ, (handle_request ec2 rid s).2.trace = s.trace ++ Δ ∧
        (statusWrites Δ = [.IN_PROGRESS, .CREATED] ∨
          statusWrites Δ = [.IN_PROGRESS, .FAILED]) ∧
        List.Chain' (fun a b => a ≤ b)
          (statusRankO item.status :: (statusWrites Δ).map statusRank) ∧
        (∀ pre t suf, statusWrites Δ = pre ++ t :: suf →
          (t = .CREATED ∨ t = .FAILED) → Status.IN_PROGRESS ∈ pre)) ∧
    (∀ p c ps, (reqItemOf p c ps).status = some .QUEUED) := by
  refine ⟨?_, ?_, ?_⟩
  · intro hterm
    simp [handle_request, hget, htype, hterm]
  · intro hterm
    obtain ⟨Δ, h1, -, -, h4, h5, -, -, -, -⟩ :=
      handleRequest_spec ec2 rid s item hget htype hterm hcount
    have hdis : statusWrites Δ = [.IN_PROGRESS, .CREATED] ∨
        statusWrites Δ = [.IN_PROGRESS, .FAILED] := by
      rcases hout : (handle_request ec2 rid s).1 with e | u
      · exact Or.inr (h5 e hout).1
      · exact Or.inl (h4 u hout)
    refine ⟨Δ, h1, hdis, ?_, ?_⟩
    · have hrank : statusRankO item.status ≤ 1 := by
        rcases hst : item.status with - | st
        · decide
        · rcases st with - | - | - | - <;> first
            | decide
            | (rw [hst] at hterm; cases hterm)
      rcases hdis with h | h <;> rw [h] <;>
        exact List.Chain'.cons hrank (List.Chain'.cons (by decide) (List.chain'_singleton _))
    · intro pre t suf hsplit hterm'
      rcases hdis with h | h <;> rw [h] at hsplit <;>
        (rcases pre with - | ⟨p1, pre2⟩
         · rw [List.nil_append] at hsplit
           obtain ⟨rfl, -⟩ := List.cons.inj hsplit
           rcases hterm' with h' | h' <;> cases h'
         · rcases pre2 with - | ⟨p2, pre3⟩
           · obtain ⟨rfl, -⟩ := List.cons.inj hsplit
             exact List.mem_singleton.mpr rfl
           · obtain ⟨-, hsplit2⟩ := List.cons.inj hsplit
             obtain ⟨-, hsplit3⟩ := List.cons.inj hsplit2
             exact absurd hsplit3 (by simp))
  · intro p c ps
    rfl

/-- C6 witness (for the amended theorem): a complete run on a fresh
`QUEUED` record. -/
theorem c6_forward_only_status_witness :
    (sget ([("r1", demoQueued)] : Store) "r1" = some demoQueued ∧
      demoQueued.type = some "VPC_REQUEST" ∧
      (demoQueued.request.getD {}).subnets.length ≤ MAX_SUBNETS) ∧
    ((terminalStatus demoQueued.status = true →
        handle_request demoEc2 "r1" ⟨[("r1", demoQueued)], 0, []⟩ =
          (.ok (), ⟨[("r1", demoQueued)], 0, []⟩)) ∧
      (terminalStatus demoQueued.status = false →
        ∃ Δ, (handle_request demoEc2 "r1" ⟨[("r1", demoQueued)], 0, []⟩).2.trace =
            ([] : List WEv) ++ Δ ∧
          (statusWrites Δ = [.IN_PROGRESS, .CREATED] ∨
            statusWrites Δ = [.IN_PROGRESS, .FAILED]) ∧
          List.Chain' (fun a b => a ≤ b)
            (statusRankO demoQueued.status :: (statusWrites Δ).map statusRank) ∧
          (∀ pre t suf, statusWrites Δ = pre ++ t :: suf →
            (t = .CREATED ∨ t = .FAILED) → Status.IN_PROGRESS ∈ pre)) ∧
      (∀ p c ps, (reqItemOf p c ps).status = some .QUEUED)) :=
  ⟨⟨by decide, by decide, by decide⟩,
    c6_forward_only_status demoEc2 "r1" ⟨[("r1", demoQueued)], 0, []⟩ demoQueued
      (by decide) (by decide) (by decide)⟩

/-! ## The two-call race on one idempotency key -/

theorem sget_sput_ne (st : Store) (k k' : String) (v : Item) (h : k' ≠ k) :
    sget (sput st k' v) k = sget st k := by
  simp [sget, sput, List.find?_cons, h]

/-- The winner's configuration after its conditional put succeeded: its
program counter, the store and the queue move together. -/
def WCfg (p : CallParams) (c : String) (ps : List SubnetSpec) (st0 : Store)
    (q0 : List String) (t : ISt) (st : Store) (q : List String) : Prop :=
  (t = .wPutReq c ps ∧ st = sput st0 p.lockKey (lockItemOf p) ∧ q = q0) ∨
  (t = .wSend ∧
    st = sput (sput st0 p.lockKey (lockItemOf p)) p.rid (reqItemOf p c ps) ∧ q = q0) ∨
  (t = .done ⟨202, .acceptedBasic p.rid "QUEUED"⟩ ∧
    st = sput (sput st0 p.lockKey (lockItemOf p)) p.rid (reqItemOf p c ps) ∧
    q = q0 ++ [p.rid])

/-- The loser's possible program counters: it validated (or is about to),
lost the conditional put, reads the lock, then the winner's row, and
answers 202 with the winner's request id — minimal if the row was not yet
visible, else the stored snapshot (a fresh `QUEUED` record). -/
def LoserSt (wrid : String) (c : String) (ps : List SubnetSpec) (t : ISt) : Prop :=
  t = .start ∨ t = .atLock c ps ∨ t = .lGetLock ∨ t = .lGetReq wrid ∨
  t = .done ⟨202, .acceptedBasic wrid "QUEUED"⟩ ∨
  t = .done ⟨202, .acceptedFull wrid "QUEUED" none none⟩

/-- Joint invariant of the two racing calls: either no conditional put has
happened yet, or one call holds the lock and the other is on the replay
path. -/
def Inv2 (p1 p2 : CallParams) (c1 c2 : String) (ps1 ps2 : List SubnetSpec) (st0 : Store)
    (q0 : List String) (cfg : ISt × ISt × GState) : Prop :=
  ((cfg.1 = .start ∨ cfg.1 = .atLock c1 ps1) ∧ (cfg.2.1 = .start ∨ cfg.2.1 = .atLock c2 ps2) ∧
    cfg.2.2.store = st0 ∧ cfg.2.2.queue = q0) ∨
  (WCfg p1 c1 ps1 st0 q0 cfg.1 cfg.2.2.store cfg.2.2.queue ∧ LoserSt p1.rid c2 ps2 cfg.2.1) ∨
  (WCfg p2 c2 ps2 st0 q0 cfg.2.1 cfg.2.2.store cfg.2.2.queue ∧ LoserSt p2.rid c1 ps1 cfg.1)

/-- A winner step moves the winner along `WCfg` and only appends events. -/
theorem wcfg_step (p : CallParams) (c : String) (ps : List SubnetSpec) (st0 : Store)
    (q0 : List String) (t : ISt) (g : GState)
    (h : WCfg p c ps st0 q0 t g.store g.queue) :
    WCfg p c ps st0 q0 (istep p t g).1 (istep p t g).2.store (istep p t g).2.queue := by
  rcases h with ⟨ht, hst, hq⟩ | ⟨ht, hst, hq⟩ | ⟨ht, hst, hq⟩ <;> subst ht
  · exact Or.inr (Or.inl ⟨rfl, by simp [istep, hst], by simp [istep, hq]⟩)
  · exact Or.inr (Or.inr ⟨rfl, by simp [istep, hst], by simp [istep, hq]⟩)
  · exact Or.inr (Or.inr ⟨rfl, by simp [istep, hst], by simp [istep, hq]⟩)

/-- A loser step leaves store and queue alone and stays within
`LoserSt`. -/
theorem loser_step (pw pl : CallParams) (cw cl : String) (psw psl : List SubnetSpec)
    (st0 : Store) (q0 : List String) (tw tl : ISt) (g : GState)
    (hw : WCfg pw cw psw st0 q0 tw g.store g.queue)
    (hl : LoserSt pw.rid cl psl tl)
    (hkey : pl.lockKey = pw.lockKey)
    (hvl : validate_request pl.payload = .ok (cl, psl))
    (hidl : ∃ tokl, pl.idem = some tokl ∧ tokl ≠ "")
    (hkr : pw.lockKey ≠ pw.rid)
    (hfw : sget st0 pw.rid = none) :
    LoserSt pw.rid cl psl (istep pl tl g).1 ∧
    (istep pl tl g).2.store = g.store ∧ (istep pl tl g).2.queue = g.queue := by
  obtain ⟨tokl, hidl, htokl⟩ := hidl
  have hlockget : sget g.store pw.lockKey = some (lockItemOf pw) := by
    rcases hw with ⟨-, hst, -⟩ | ⟨-, hst, -⟩ | ⟨-, hst, -⟩ <;> rw [hst]
    · exact sget_sput_same _ _ _
    · rw [sget_sput_ne _ _ _ _ (fun h => hkr h.symm)]
      exact sget_sput_same _ _ _
    · rw [sget_sput_ne _ _ _ _ (fun h => hkr h.symm)]
      exact sget_sput_same _ _ _
  rcases hl with ht | ht | ht | ht | ht | ht <;> subst ht
  · refine ⟨?_, by simp [istep, hidl, htokl, hvl], by simp [istep, hidl, htokl, hvl]⟩
    unfold LoserSt
    simp [istep, hidl, htokl, hvl]
  · refine ⟨?_, ?_, ?_⟩
    · unfold LoserSt
      rw [show (istep pl (.atLock cl psl) g).1 = .lGetLock by
        simp [istep, hkey, hlockget]]
      simp
    · simp [istep, hkey, hlockget]
    · simp [istep, hkey, hlockget]
  · refine ⟨?_, by simp [istep, hkey, hlockget, lockItemOf], by simp [istep, hkey, hlockget, lockItemOf]⟩
    unfold LoserSt
    rw [show (istep pl .lGetLock g).1 = .lGetReq pw.rid by
      simp [istep, hkey, hlockget, lockItemOf]]
    simp
  · have hrow : sget g.store pw.rid = none ∨
        sget g.store pw.rid = some (reqItemOf pw cw psw) := by
      rcases hw with ⟨-, hst, -⟩ | ⟨-, hst, -⟩ | ⟨-, hst, -⟩ <;> rw [hst]
      · left
        rw [sget_sput_ne _ _ _ _ hkr]
        exact hfw
      · right
        exact sget_sput_same _ _ _
      · right
        exact sget_sput_same _ _ _
    refine ⟨?_, by rcases hrow with h | h <;> simp [istep, h],
      by rcases hrow with h | h <;> simp [istep, h]⟩
    unfold LoserSt
    rcases hrow with h | h
    · rw [show (istep pl (.lGetReq pw.rid) g).1 =
        .done ⟨202, .acceptedBasic pw.rid "QUEUED"⟩ by simp [istep, h]]
      simp
    · rw [show (istep pl (.lGetReq pw.rid) g).1 =
        .done ⟨202, .acceptedFull pw.rid "QUEUED" none none⟩ by
          simp [istep, h, reqItemOf, Status.str]]
      simp
  · exact ⟨Or.inr (Or.inr (Or.inr (Or.inr (Or.inl rfl)))), rfl, rfl⟩
  · exact ⟨Or.inr (Or.inr (Or.inr (Or.inr (Or.inr rfl)))), rfl, rfl⟩

/-- One scheduled step preserves the joint invariant. -/
theorem inv2_step (p1 p2 : CallParams) (c1 c2 : String) (ps1 ps2 : List SubnetSpec)
    (st0 : Store) (q0 : List String)
    (hkey : p2.lockKey = p1.lockKey)
    (hv1 : validate_request p1.payload = .ok (c1, ps1))
    (hv2 : validate_request p2.payload = .ok (c2, ps2))
    (hid1 : ∃ t, p1.idem = some t ∧ t ≠ "") (hid2 : ∃ t, p2.idem = some t ∧ t ≠ "")
    (hlk : sget st0 p1.lockKey = none)
    (hf1 : sget st0 p1.rid = none) (hf2 : sget st0 p2.rid = none)
    (hkr1 : p1.lockKey ≠ p1.rid) (hkr2 : p1.lockKey ≠ p2.rid)
    (b : Bool) (t1 t2 : ISt) (g : GState)
    (hinv : Inv2 p1 p2 c1 c2 ps1 ps2 st0 q0 (t1, t2, g)) :
    Inv2 p1 p2 c1 c2 ps1 ps2 st0 q0
      (if b then ((istep p1 t1 g).1, t2, (istep p1 t1 g).2)
       else (t1, (istep p2 t2 g).1, (istep p2 t2 g).2)) := by
  obtain ⟨tk1, hid1, htk1⟩ := hid1
  obtain ⟨tk2, hid2, htk2⟩ := hid2
  rcases hinv with ⟨h1, h2, hst, hq⟩ | ⟨hw, hl⟩ | ⟨hw, hl⟩
  · -- no conditional put has happened yet
    have hgs : g.store = st0 := hst
    have hgq : g.queue = q0 := hq
    have h1' : t1 = ISt.start ∨ t1 = ISt.atLock c1 ps1 := h1
    have h2' : t2 = ISt.start ∨ t2 = ISt.atLock c2 ps2 := h2
    cases b
    · show Inv2 p1 p2 c1 c2 ps1 ps2 st0 q0 (t1, (istep p2 t2 g).1, (istep p2 t2 g).2)
      rcases h2' with ht | ht <;> subst ht
      · exact Or.inl ⟨h1', by simp [istep, hid2, htk2, hv2],
          by simp [istep, hid2, htk2, hv2, hgs], by simp [istep, hid2, htk2, hv2, hgq]⟩
      · have hck : sget g.store p2.lockKey = none := by
          rw [hkey, hgs]
          exact hlk
        refine Or.inr (Or.inr ⟨Or.inl ⟨by simp [istep, hck], ?_, ?_⟩, ?_⟩)
        · simp [istep, hck, hgs, hkey, hlk]
        · simp [istep, hck, hgq, hkey, hgs, hlk]
        · rcases h1' with ht | ht <;> subst ht
          · exact Or.inl rfl
          · exact Or.inr (Or.inl rfl)
    · show Inv2 p1 p2 c1 c2 ps1 ps2 st0 q0 ((istep p1 t1 g).1, t2, (istep p1 t1 g).2)
      rcases h1' with ht | ht <;> subst ht
      · exact Or.inl ⟨by simp [istep, hid1, htk1, hv1], h2',
          by simp [istep, hid1, htk1, hv1, hgs], by simp [istep, hid1, htk1, hv1, hgq]⟩
      · have hck : sget g.store p1.lockKey = none := by
          rw [hgs]
          exact hlk
        refine Or.inr (Or.inl ⟨Or.inl ⟨by simp [istep, hck], ?_, ?_⟩, ?_⟩)
        · simp [istep, hck, hgs, hlk]
        · simp [istep, hck, hgq, hgs, hlk]
        · rcases h2' with ht | ht <;> subst ht
          · exact Or.inl rfl
          · exact Or.inr (Or.inl rfl)
  · -- call 1 holds the lock
    have hw' : WCfg p1 c1 ps1 st0 q0 t1 g.store g.queue := hw
    have hl' : LoserSt p1.rid c2 ps2 t2 := hl
    cases b
    · show Inv2 p1 p2 c1 c2 ps1 ps2 st0 q0 (t1, (istep p2 t2 g).1, (istep p2 t2 g).2)
      obtain ⟨hl2, hst2, hq2⟩ := loser_step p1 p2 c1 c2 ps1 ps2 st0 q0 t1 t2 g hw' hl' hkey
        hv2 ⟨tk2, hid2, htk2⟩ hkr1 hf1
      refine Or.inr (Or.inl ⟨?_, hl2⟩)
      show WCfg p1 c1 ps1 st0 q0 t1 (istep p2 t2 g).2.store (istep p2 t2 g).2.queue
      rw [hst2, hq2]
      exact hw'
    · show Inv2 p1 p2 c1 c2 ps1 ps2 st0 q0 ((istep p1 t1 g).1, t2, (istep p1 t1 g).2)
      exact Or.inr (Or.inl ⟨wcfg_step p1 c1 ps1 st0 q0 t1 g hw', hl'⟩)
  · -- call 2 holds the lock
    have hw' : WCfg p2 c2 ps2 st0 q0 t2 g.store g.queue := hw
    have hl' : LoserSt p2.rid c1 ps1 t1 := hl
    cases b
    · show Inv2 p1 p2 c1 c2 ps1 ps2 st0 q0 (t1, (istep p2 t2 g).1, (istep p2 t2 g).2)
      exact Or.inr (Or.inr ⟨wcfg_step p2 c2 ps2 st0 q0 t2 g hw', hl'⟩)
    · show Inv2 p1 p2 c1 c2 ps1 ps2 st0 q0 ((istep p1 t1 g).1, t2, (istep p1 t1 g).2)
      obtain ⟨hl2, hst2, hq2⟩ := loser_step p2 p1 c2 c1 ps2 ps1 st0 q0 t2 t1 g hw' hl'
        hkey.symm hv1 ⟨tk1, hid1, htk1⟩ (by rw [hkey]; exact hkr2) hf2
      refine Or.inr (Or.inr ⟨?_, hl2⟩)
      show WCfg p2 c2 ps2 st0 q0 t2 (istep p1 t1 g).2.store (istep p1 t1 g).2.queue
      rw [hst2, hq2]
      exact hw'

/-- The invariant holds after any schedule. -/
theorem run2_inv (p1 p2 : CallParams) (c1 c2 : String) (ps1 ps2 : List SubnetSpec)
    (st0 : Store) (q0 : List String)
    (hkey : p2.lockKey = p1.lockKey)
    (hv1 : validate_request p1.payload = .ok (c1, ps1))
    (hv2 : validate_request p2.payload = .ok (c2, ps2))
    (hid1 : ∃ t, p1.idem = some t ∧ t ≠ "") (hid2 : ∃ t, p2.idem = some t ∧ t ≠ "")
    (hlk : sget st0 p1.lockKey = none)
    (hf1 : sget st0 p1.rid = none) (hf2 : sget st0 p2.rid = none)
    (hkr1 : p1.lockKey ≠ p1.rid) (hkr2 : p1.lockKey ≠ p2.rid) :
    ∀ (sched : List Bool) (cfg : ISt × ISt × GState),
      Inv2 p1 p2 c1 c2 ps1 ps2 st0 q0 cfg →
      Inv2 p1 p2 c1 c2 ps1 ps2 st0 q0 (run2 p1 p2 sched cfg) := by
  intro sched
  induction sched with
  | nil => exact fun cfg h => h
  | cons b rest ih =>
    intro cfg h
    rcases cfg with ⟨t1, t2, g⟩
    have hstep := inv2_step p1 p2 c1 c2 ps1 ps2 st0 q0 hkey hv1 hv2 hid1 hid2 hlk hf1 hf2
      hkr1 hkr2 b t1 t2 g h
    cases b
    · exact ih (t1, (istep p2 t2 g).1, (istep p2 t2 g).2) hstep
    · exact ih ((istep p1 t1 g).1, t2, (istep p1 t1 g).2) hstep

/-- C1: two create-request calls with the same `(identity, token)` — any
interleaving of their atomic table/queue steps that completes both.
Hypotheses: the two calls share identity and a non-empty idempotency
token (an absent or empty header is answered 400 before anything else),
both bodies validate, the lockKey and both freshly generated request ids are
absent from the initial table, the ids are distinct, and the lockKey is
not an id.  Conclusions: both callers get a 202; exactly one call (the
winner) wins the conditional lock write and creates the one Request row
and the one queue message, and the other takes the replay path and
answers 202 with the winner's `requestId` (a minimal `QUEUED` snapshot if
the winner's row was not yet visible); the final table holds exactly the
winner's lock row and Request row and no row for the loser's id. -/
theorem c1_exactly_one_request (p1 p2 : CallParams) (tok c1 c2 : String)
    (ps1 ps2 : List SubnetSpec) (st0 : Store) (q0 : List String) (ev0 : List IEv)
    (sched : List Bool) (r1 r2 : HttpResp) (gf : GState)
    (hcb : p1.created_by = p2.created_by)
    (hidem1 : p1.idem = some tok) (hidem2 : p2.idem = some tok)
    (htok : tok ≠ "")
    (hv1 : validate_request p1.payload = .ok (c1, ps1))
    (hv2 : validate_request p2.payload = .ok (c2, ps2))
    (hrid : p1.rid ≠ p2.rid)
    (hlk : sget st0 p1.lockKey = none)
    (hf1 : sget st0 p1.rid = none) (hf2 : sget st0 p2.rid = none)
    (hkr1 : p1.lockKey ≠ p1.rid) (hkr2 : p1.lockKey ≠ p2.rid)
    (hrun : run2 p1 p2 sched (.start, .start, ⟨st0, q0, ev0⟩) = (.done r1, .done r2, gf)) :
    r1.code = 202 ∧ r2.code = 202 ∧
    ((r1 = ⟨202, .acceptedBasic p1.rid "QUEUED"⟩ ∧
      (r2 = ⟨202, .acceptedBasic p1.rid "QUEUED"⟩ ∨
        r2 = ⟨202, .acceptedFull p1.rid "QUEUED" none none⟩) ∧
      gf.store = sput (sput st0 p1.lockKey (lockItemOf p1)) p1.rid (reqItemOf p1 c1 ps1) ∧
      gf.queue = q0 ++ [p1.rid] ∧
      sget gf.store p1.lockKey = some (lockItemOf p1) ∧
      sget gf.store p1.rid = some (reqItemOf p1 c1 ps1) ∧
      sget gf.store p2.rid = none) ∨
     (r2 = ⟨202, .acceptedBasic p2.rid "QUEUED"⟩ ∧
      (r1 = ⟨202, .acceptedBasic p2.rid "QUEUED"⟩ ∨
        r1 = ⟨202, .acceptedFull p2.rid "QUEUED" none none⟩) ∧
      gf.store = sput (sput st0 p2.lockKey (lockItemOf p2)) p2.rid (reqItemOf p2 c2 ps2) ∧
      gf.queue = q0 ++ [p2.rid] ∧
      sget gf.store p2.lockKey = some (lockItemOf p2) ∧
      sget gf.store p2.rid = some (reqItemOf p2 c2 ps2) ∧
      sget gf.store p1.rid = none)) := by
  have hkey : p2.lockKey = p1.lockKey := by
    unfold CallParams.lockKey
    rw [hcb, hidem1, hidem2]
  have hinv := run2_inv p1 p2 c1 c2 ps1 ps2 st0 q0 hkey hv1 hv2 ⟨tok, hidem1, htok⟩
    ⟨tok, hidem2, htok⟩
    hlk hf1 hf2 hkr1 hkr2 sched (.start, .start, ⟨st0, q0, ev0⟩)
    (Or.inl ⟨Or.inl rfl, Or.inl rfl, rfl, rfl⟩)
  rw [hrun] at hinv
  rcases hinv with ⟨h1, -, -, -⟩ | ⟨hw, hl⟩ | ⟨hw, hl⟩
  · have h1' : ISt.done r1 = ISt.start ∨ ISt.done r1 = ISt.atLock c1 ps1 := h1
    rcases h1' with ht | ht <;> cases ht
  · have hw' : WCfg p1 c1 ps1 st0 q0 (ISt.done r1) gf.store gf.queue := hw
    have hl' : LoserSt p1.rid c2 ps2 (ISt.done r2) := hl
    rcases hw' with ⟨ht, -, -⟩ | ⟨ht, -, -⟩ | ⟨ht, hst, hq⟩
    · cases ht
    · cases ht
    have hr1 : r1 = ⟨202, .acceptedBasic p1.rid "QUEUED"⟩ := by
      injection ht with h'
    have hr2 : r2 = ⟨202, .acceptedBasic p1.rid "QUEUED"⟩ ∨
        r2 = ⟨202, .acceptedFull p1.rid "QUEUED" none none⟩ := by
      rcases hl' with ht' | ht' | ht' | ht' | ht' | ht'
      · cases ht'
      · cases ht'
      · cases ht'
      · cases ht'
      · left
        injection ht' with h'
      · right
        injection ht' with h'
    have hglock : sget gf.store p1.lockKey = some (lockItemOf p1) := by
      rw [hst, sget_sput_ne _ _ _ _ (fun h => hkr1 h.symm)]
      exact sget_sput_same _ _ _
    have hgreq : sget gf.store p1.rid = some (reqItemOf p1 c1 ps1) := by
      rw [hst]
      exact sget_sput_same _ _ _
    have hgloser : sget gf.store p2.rid = none := by
      rw [hst, sget_sput_ne _ _ _ _ hrid, sget_sput_ne _ _ _ _ (fun h => hkr2 h)]
      exact hf2
    refine ⟨by rw [hr1], ?_, Or.inl ⟨hr1, hr2, hst, hq, hglock, hgreq, hgloser⟩⟩
    rcases hr2 with h | h <;> rw [h]
  · have hw' : WCfg p2 c2 ps2 st0 q0 (ISt.done r2) gf.store gf.queue := hw
    have hl' : LoserSt p2.rid c1 ps1 (ISt.done r1) := hl
    rcases hw' with ⟨ht, -, -⟩ | ⟨ht, -, -⟩ | ⟨ht, hst, hq⟩
    · cases ht
    · cases ht
    have hr2 : r2 = ⟨202, .acceptedBasic p2.rid "QUEUED"⟩ := by
      injection ht with h'
    have hr1 : r1 = ⟨202, .acceptedBasic p2.rid "QUEUED"⟩ ∨
        r1 = ⟨202, .acceptedFull p2.rid "QUEUED" none none⟩ := by
      rcases hl' with ht' | ht' | ht' | ht' | ht' | ht'
      · cases ht'
      · cases ht'
      · cases ht'
      · cases ht'
      · left
        injection ht' with h'
      · right
        injection ht' with h'
    have hglock : sget gf.store p2.lockKey = some (lockItemOf p2) := by
      have hkr2' : p2.lockKey ≠ p2.rid := by
        rw [hkey]
        exact hkr2
      rw [hst, sget_sput_ne _ _ _ _ (fun h => hkr2' h.symm)]
      exact sget_sput_same _ _ _
    have hgreq : sget gf.store p2.rid = some (reqItemOf p2 c2 ps2) := by
      rw [hst]
      exact sget_sput_same _ _ _
    have hgloser : sget gf.store p1.rid = none := by
      have hkr1' : p2.lockKey ≠ p1.rid := by
        rw [hkey]
        exact hkr1
      rw [hst, sget_sput_ne _ _ _ _ (fun h => hrid h.symm), sget_sput_ne _ _ _ _ hkr1']
      exact hf1
    refine ⟨?_, by rw [hr2], Or.inr ⟨hr2, hr1, hst, hq, hglock, hgreq, hgloser⟩⟩
    rcases hr1 with h | h <;> rw [h]

def demoPayload : Payload :=
  { vpc := some { cidr := some "10.0.0.0/16" }
    subnets := some [SubnetEntry.obj { cidr := some "10.0.1.0/24", az := some "zone-a" }] }

def demoCall1 : CallParams :=
  { created_by := "alice", idem := some "tok", payload := demoPayload
    rid := "r1", now := 5, ttl_epoch := 86405 }

def demoCall2 : CallParams :=
  { created_by := "alice", idem := some "tok", payload := demoPayload
    rid := "r2", now := 6, ttl_epoch := 86406 }

def demoParsed : List SubnetSpec := [⟨"10.0.1.0/24", "zone-a", none⟩]

/-- The responses and final shared state of the witness race below: call 1
wins, call 2 replays before the winner's request row is visible. -/
def c1wR : HttpResp := ⟨202, .acceptedBasic "r1" "QUEUED"⟩

def c1wG : GState :=
  ⟨sput (sput [] demoCall1.lockKey (lockItemOf demoCall1)) "r1"
      (reqItemOf demoCall1 "10.0.0.0/16" demoParsed),
    ["r1"],
    [.evValidate, .evCondPutLock "lock#alice#tok" true, .evValidate,
      .evCondPutLock "lock#alice#tok" false, .evGetItem "lock#alice#tok",
      .evGetItem "r1", .evPutItem "r1", .evSend "r1"]⟩

/-- C1 witness: a concrete interleaving in which the loser reads between
the winner's two writes. -/
theorem c1_exactly_one_request_witness :
    (demoCall1.created_by = demoCall2.created_by ∧
      ("tok" : String) ≠ "" ∧
      demoCall1.rid ≠ demoCall2.rid ∧
      sget ([] : Store) demoCall1.lockKey = none ∧
      demoCall1.lockKey ≠ demoCall1.rid ∧ demoCall1.lockKey ≠ demoCall2.rid ∧
      run2 demoCall1 demoCall2 [true, true, false, false, false, false, true, true]
        (.start, .start, ⟨[], [], []⟩) = (.done c1wR, .done c1wR, c1wG)) ∧
    (c1wR.code = 202 ∧ c1wR.code = 202 ∧
      ((c1wR = ⟨202, .acceptedBasic demoCall1.rid "QUEUED"⟩ ∧
        (c1wR = ⟨202, .acceptedBasic demoCall1.rid "QUEUED"⟩ ∨
          c1wR = ⟨202, .acceptedFull demoCall1.rid "QUEUED" none none⟩) ∧
        c1wG.store = sput (sput ([] : Store) demoCall1.lockKey (lockItemOf demoCall1))
          demoCall1.rid (reqItemOf demoCall1 "10.0.0.0/16" demoParsed) ∧
        c1wG.queue = ([] : List String) ++ [demoCall1.rid] ∧
        sget c1wG.store demoCall1.lockKey = some (lockItemOf demoCall1) ∧
        sget c1wG.store demoCall1.rid = some (reqItemOf demoCall1 "10.0.0.0/16" demoParsed) ∧
        sget c1wG.store demoCall2.rid = none) ∨
       (c1wR = ⟨202, .acceptedBasic demoCall2.rid "QUEUED"⟩ ∧
        (c1wR = ⟨202, .acceptedBasic demoCall2.rid "QUEUED"⟩ ∨
          c1wR = ⟨202, .acceptedFull demoCall2.rid "QUEUED" none none⟩) ∧
        c1wG.store = sput (sput ([] : Store) demoCall2.lockKey (lockItemOf demoCall2))
          demoCall2.rid (reqItemOf demoCall2 "10.0.0.0/16" demoParsed) ∧
        c1wG.queue = ([] : List String) ++ [demoCall2.rid] ∧
        sget c1wG.store demoCall2.lockKey = some (lockItemOf demoCall2) ∧
        sget c1wG.store demoCall2.rid = some (reqItemOf demoCall2 "10.0.0.0/16" demoParsed) ∧
        sget c1wG.store demoCall1.rid = none))) :=
  ⟨⟨rfl, by decide, by decide, rfl, by decide, by decide, by rfl⟩,
    c1_exactly_one_request demoCall1 demoCall2 "tok" "10.0.0.0/16" "10.0.0.0/16"
      demoParsed demoParsed [] [] [] [true, true, false, false, false, false, true, true]
      c1wR c1wR c1wG rfl rfl rfl (by decide) (by rfl) (by rfl) (by decide) rfl rfl rfl
      (by decide) (by decide) (by rfl)⟩

/-- C9: a call carrying a non-empty idempotency header (an absent or
empty header is answered 400 before the lock is ever consulted) whose
body validates and that finds the idempotency lock
already held answers 202 with the lock owner's `requestId` — the minimal
`{requestId, QUEUED}` snapshot if the owner's row is not yet visible, and
otherwise the stored row's `requestId`, `status` (whatever it is,
`CREATED` and `FAILED` included; absent rendered `UNKNOWN`), `result` and
`errorMessage` — and it writes nothing: store and queue are unchanged, and
its event trace is exactly one validation (before the conditional put),
the failed conditional put, and the two reads — no validation after the
lock attempt, no put, no send. -/
theorem c9_replay_semantics (p : CallParams) (tok : String) (g : GState) (lk : Item)
    (o : String) (c : String) (ps : List SubnetSpec)
    (hidem : p.idem = some tok) (htok : tok ≠ "")
    (hval : validate_request p.payload = .ok (c, ps))
    (hlock : sget g.store p.lockKey = some lk)
    (howner : lk.lock_request_id = some o) :
    (∃ r, (runCall p g).1 = .done r ∧ r.code = 202 ∧ r.ridOf = some o ∧
      (sget g.store o = none → r = ⟨202, .acceptedBasic o "QUEUED"⟩) ∧
      (∀ it, sget g.store o = some it →
        r = ⟨202, .acceptedFull o ((it.status.map Status.str).getD "UNKNOWN")
          it.result it.error_message⟩)) ∧
    (runCall p g).2.store = g.store ∧
    (runCall p g).2.queue = g.queue ∧
    (runCall p g).2.events = g.events ++
      [.evValidate, .evCondPutLock p.lockKey false, .evGetItem p.lockKey, .evGetItem o] := by
  have hred : istep p .start g =
      (.atLock c ps, { g with events := g.events ++ [.evValidate] }) := by
    simp [istep, hidem, htok, hval]
  have hred2 : istep p (.atLock c ps) { g with events := g.events ++ [.evValidate] } =
      (.lGetLock, { g with events := g.events ++ [.evValidate,
        .evCondPutLock p.lockKey false] }) := by
    simp [istep, hlock]
  have hred3 : istep p .lGetLock { g with events := g.events ++ [.evValidate,
      .evCondPutLock p.lockKey false] } =
      (.lGetReq o, { g with events := g.events ++ [.evValidate,
        .evCondPutLock p.lockKey false, .evGetItem p.lockKey] }) := by
    simp [istep, hlock, howner]
  have hstep5 : ∀ (r : HttpResp) (g' : GState), istep p (.done r) g' = (.done r, g') :=
    fun _ _ => rfl
  rcases hrow : sget g.store o with _ | it
  · have hred4 : istep p (.lGetReq o) { g with events := g.events ++ [.evValidate,
        .evCondPutLock p.lockKey false, .evGetItem p.lockKey] } =
        (.done ⟨202, .acceptedBasic o "QUEUED"⟩, { g with events := g.events ++ [.evValidate,
          .evCondPutLock p.lockKey false, .evGetItem p.lockKey, .evGetItem o] }) := by
      simp [istep, hrow]
    have hrc : runCall p g = (.done ⟨202, .acceptedBasic o "QUEUED"⟩,
        { g with events := g.events ++ [.evValidate, .evCondPutLock p.lockKey false,
          .evGetItem p.lockKey, .evGetItem o] }) := by
      simp only [runCall, hred, hred2, hred3, hred4, hstep5]
    refine ⟨⟨⟨202, .acceptedBasic o "QUEUED"⟩, by rw [hrc], rfl, rfl, fun _ => rfl, ?_⟩,
      by rw [hrc], by rw [hrc], by rw [hrc]⟩
    intro it hit
    exact Option.noConfusion hit
  · have hred4 : istep p (.lGetReq o) { g with events := g.events ++ [.evValidate,
        .evCondPutLock p.lockKey false, .evGetItem p.lockKey] } =
        (.done ⟨202, .acceptedFull o ((it.status.map Status.str).getD "UNKNOWN")
          it.result it.error_message⟩,
          { g with events := g.events ++ [.evValidate,
            .evCondPutLock p.lockKey false, .evGetItem p.lockKey, .evGetItem o] }) := by
      simp [istep, hrow]
    have hrc : runCall p g = (.done ⟨202, .acceptedFull o
        ((it.status.map Status.str).getD "UNKNOWN") it.result it.error_message⟩,
        { g with events := g.events ++ [.evValidate, .evCondPutLock p.lockKey false,
          .evGetItem p.lockKey, .evGetItem o] }) := by
      simp only [runCall, hred, hred2, hred3, hred4, hstep5]
    refine ⟨⟨⟨202, .acceptedFull o ((it.status.map Status.str).getD "UNKNOWN")
      it.result it.error_message⟩, by rw [hrc], rfl, rfl, ?_, ?_⟩,
      by rw [hrc], by rw [hrc], by rw [hrc]⟩
    · intro hnone
      exact Option.noConfusion hnone
    · intro it' hit
      have h9 : it = it' := Option.some.inj hit
      rw [h9]

/-- C9 witness: a replay against a terminal (`FAILED`) owner record — the
response is still a 202 carrying the stored state. -/
theorem c9_replay_semantics_witness :
    (demoCall2.idem = some "tok" ∧ ("tok" : String) ≠ "" ∧
      validate_request demoCall2.payload = .ok ("10.0.0.0/16", demoParsed) ∧
      sget c1wG.store demoCall2.lockKey = some (lockItemOf demoCall1) ∧
      (lockItemOf demoCall1).lock_request_id = some "r1") ∧
    ((∃ r, (runCall demoCall2 c1wG).1 = .done r ∧ r.code = 202 ∧ r.ridOf = some "r1" ∧
      (sget c1wG.store "r1" = none → r = ⟨202, .acceptedBasic "r1" "QUEUED"⟩) ∧
      (∀ it, sget c1wG.store "r1" = some it →
        r = ⟨202, .acceptedFull "r1" ((it.status.map Status.str).getD "UNKNOWN")
          it.result it.error_message⟩)) ∧
    (runCall demoCall2 c1wG).2.store = c1wG.store ∧
    (runCall demoCall2 c1wG).2.queue = c1wG.queue ∧
    (runCall demoCall2 c1wG).2.events = c1wG.events ++
      [.evValidate, .evCondPutLock demoCall2.lockKey false, .evGetItem demoCall2.lockKey,
        .evGetItem "r1"]) :=
  ⟨⟨rfl, by decide, by rfl, by decide, rfl⟩,
    c9_replay_semantics demoCall2 "tok" c1wG (lockItemOf demoCall1) "r1" "10.0.0.0/16"
      demoParsed rfl (by decide) (by rfl) (by decide) rfl⟩

/-- C8 counterexample: the lock row's `request_id` attribute is the
derived lock key, which embeds the caller identity verbatim — for
identity `alice` and token `tok` the stored attribute value
`lock#alice#tok` contains `alice` as a substring, so the claim that no
stored attribute contains the identity verbatim is false. -/
theorem c8_counterexample :
    ("request_id", "lock#alice#tok") ∈ lockAttrs "alice" "tok" "r1" 5 86405 ∧
    strContains "lock#alice#tok" "alice" := by
  refine ⟨by decide, "lock#", "#tok", by decide⟩

/-- C8 amended: the lock row stores no dedicated identity attribute —
there is no `created_by` attribute (the stored lock `Item` leaves it
empty), and every attribute other than the row key `request_id` is
independent of the caller identity; the identity enters the row only
through the derived lock key `lock#<identity>#<token>`, in which it
appears verbatim as a substring. -/
theorem c8_identity_only_in_lock_key (cb cb' idem rid : String) (now ttl : Nat) :
    (∀ av, ("created_by", av) ∉ lockAttrs cb idem rid now ttl) ∧
    ((lockAttrs cb idem rid now ttl).filter (fun a => a.1 ≠ "request_id") =
      (lockAttrs cb' idem rid now ttl).filter (fun a => a.1 ≠ "request_id")) ∧
    ("request_id", lock_pk cb idem) ∈ lockAttrs cb idem rid now ttl ∧
    strContains (lock_pk cb idem) cb ∧
    (∀ p : CallParams, (lockItemOf p).created_by = none) := by
  refine ⟨?_, ?_, ?_, ?_, fun p => rfl⟩
  · intro av hmem
    simp [lockAttrs] at hmem
  · simp [lockAttrs]
  · simp [lockAttrs]
  · refine ⟨"lock#", "#" ++ idem, ?_⟩
    unfold lock_pk
    rw [String.append_assoc, String.append_assoc]

/-- C8 witness. -/
theorem c8_identity_only_in_lock_key_witness :
    (∀ av, ("created_by", av) ∉ lockAttrs "alice" "tok" "r1" 5 86405) ∧
    ((lockAttrs "alice" "tok" "r1" 5 86405).filter (fun a => a.1 ≠ "request_id") =
      (lockAttrs "bob" "tok" "r1" 5 86405).filter (fun a => a.1 ≠ "request_id")) ∧
    ("request_id", lock_pk "alice" "tok") ∈ lockAttrs "alice" "tok" "r1" 5 86405 ∧
    strContains (lock_pk "alice" "tok") "alice" ∧
    (∀ p : CallParams, (lockItemOf p).created_by = none) :=
  c8_identity_only_in_lock_key "alice" "bob" "tok" "r1" 5 86405

/-! ## The validator claim

`entryCond`/`claimConditions` restate the claimed success conditions over
the payload, indexed as the claim indexes them ("each entry", "any earlier
subnet in the list"); the `nameChecked` flag selects between the claim as
stated (`false`) and the amended version that also constrains the optional
`name` field (`true`).  `OkRec` is the recursion-shaped counterpart used to
relate them to `validateSubnets`. -/

/-- The network an entry denotes, if its `cidr` parses. -/
def entryNet : SubnetEntry → Option Ipv4Net
  | .notObject => none
  | .obj s =>
    match s.cidr with
    | none => none
    | some c => ip_network c

/-- The claimed per-entry conditions for the entry at index `i`. -/
def entryCond (nameChecked : Bool) (net : Ipv4Net) (entries : List SubnetEntry)
    (i : Nat) : Prop :=
  ∃ s c a sn, entries.getD i .notObject = .obj s ∧
    s.cidr = some c ∧ c ≠ "" ∧ s.az = some a ∧ a ≠ "" ∧
    (nameChecked = true → s.name ≠ .nonString) ∧
    ip_network c = some sn ∧ subnet_of sn net = true ∧
    ∀ j, j < i → ∀ sj, entryNet (entries.getD j .notObject) = some sj →
      overlaps sn sj = false

/-- The claimed success conditions on a payload. -/
def claimConditions (nameChecked : Bool) (p : Payload) : Prop :=
  ∃ v c net entries, p.vpc = some v ∧ v.cidr = some c ∧ ip_network c = some net ∧
    p.subnets = some entries ∧ entries ≠ [] ∧ entries.length ≤ MAX_SUBNETS ∧
    ∀ i, i < entries.length → entryCond nameChecked net entries i

/-- Recursion-shaped success conditions of the per-subnet loop. -/
def OkRec (net : Ipv4Net) : List Ipv4Net → List SubnetEntry → Prop
  | _, [] => True
  | seen, e :: rest =>
    ∃ s c a sn, e = SubnetEntry.obj s ∧ s.cidr = some c ∧ c ≠ "" ∧
      s.az = some a ∧ a ≠ "" ∧ s.name ≠ .nonString ∧
      ip_network c = some sn ∧ subnet_of sn net = true ∧
      (∀ pr ∈ seen, overlaps sn pr = false) ∧ OkRec net (seen ++ [sn]) rest

lemma validateSubnets_ok_iff (vc : String) (net : Ipv4Net) :
    ∀ (rest : List SubnetEntry) (i : Nat) (seen : List Ipv4Net),
      (∃ ps, validateSubnets vc net i seen rest = .ok ps) ↔ OkRec net seen rest := by
  intro rest
  induction rest with
  | nil => intro i seen; simp [validateSubnets, OkRec]
  | cons e rest ih =>
    intro i seen
    cases e with
    | notObject => simp [validateSubnets, OkRec]
    | obj s =>
      rcases hc : s.cidr with _ | c
      · simp [validateSubnets, OkRec, hc]
      · by_cases hce : c = ""
        · simp [validateSubnets, OkRec, hc, hce]
        · rcases ha : s.az with _ | a
          · simp [validateSubnets, OkRec, hc, hce, ha]
          · by_cases hae : a = ""
            · simp [validateSubnets, OkRec, hc, hce, ha, hae]
            · by_cases hname : s.name = .nonString
              · simp [validateSubnets, OkRec, hc, hce, ha, hae, hname]
              · rcases hnet : ip_network c with _ | sn
                · simp [validateSubnets, OkRec, hc, hce, ha, hae, hname, hnet]
                · by_cases hsub : subnet_of sn net = true
                  · rcases hfind : seen.find? (fun prior => overlaps sn prior) with _ | pr
                    · have hover : ∀ pr ∈ seen, overlaps sn pr = false := by
                        intro pr hpr
                        simpa using List.find?_eq_none.mp hfind pr hpr
                      rcases hr : validateSubnets vc net (i + 1) (seen ++ [sn]) rest
                        with m | ps0
                      · have hnOk : ¬ OkRec net (seen ++ [sn]) rest := by
                          intro hOk
                          obtain ⟨ps, hps⟩ := (ih (i + 1) (seen ++ [sn])).mpr hOk
                          rw [hr] at hps
                          cases hps
                        constructor
                        · rintro ⟨ps, hps⟩
                          simp [validateSubnets, hc, hce, ha, hae, hname, hnet, hsub,
                            hfind, hr] at hps
                        · rintro ⟨s', c', a', sn', hs', hc', hce', ha', hae', hname',
                            hnet', hsub', hover', hrest⟩
                          injection hs' with hss
                          subst hss
                          have hcc : c = c' := Option.some.inj (hc.symm.trans hc')
                          subst hcc
                          have hnn : sn = sn' := Option.some.inj (hnet.symm.trans hnet')
                          subst hnn
                          exact absurd hrest hnOk
                      · have hOk : OkRec net (seen ++ [sn]) rest :=
                          (ih (i + 1) (seen ++ [sn])).mp ⟨ps0, hr⟩
                        constructor
                        · intro _
                          exact ⟨s, c, a, sn, rfl, hc, hce, ha, hae, hname, hnet, hsub,
                            hover, hOk⟩
                        · intro _
                          refine ⟨⟨c, a,
                            (match s.name with | .strVal v => some v | _ => none)⟩ :: ps0, ?_⟩
                          simp [validateSubnets, hc, hce, ha, hae, hname, hnet, hsub,
                            hfind, hr]
                    · have hmem := List.mem_of_find?_eq_some hfind
                      have hp : overlaps sn pr = true := List.find?_some hfind
                      constructor
                      · rintro ⟨ps, hps⟩
                        simp [validateSubnets, hc, hce, ha, hae, hname, hnet, hsub,
                          hfind] at hps
                      · rintro ⟨s', c', a', sn', hs', hc', hce', ha', hae', hname',
                          hnet', hsub', hover', hrest⟩
                        injection hs' with hss
                        subst hss
                        have hcc : c = c' := Option.some.inj (hc.symm.trans hc')
                        subst hcc
                        have hnn : sn = sn' := Option.some.inj (hnet.symm.trans hnet')
                        subst hnn
                        exact absurd (hp.symm.trans (hover' pr hmem)) (by decide)
                  · simp [validateSubnets, OkRec, hc, hce, ha, hae, hname, hnet, hsub]

lemma mem_priorNets {entries : List SubnetEntry} {d : Nat} {pr : Ipv4Net} :
    pr ∈ (entries.take d).filterMap entryNet ↔
      ∃ j, j < d ∧ j < entries.length ∧
        entryNet (entries.getD j .notObject) = some pr := by
  simp only [List.mem_filterMap, List.mem_take_iff_getElem]
  constructor
  · rintro ⟨x, ⟨j, hm, hja⟩, hfx⟩
    have hj1 : j < d := lt_of_lt_of_le hm (min_le_left _ _)
    have hj2 : j < entries.length := lt_of_lt_of_le hm (min_le_right _ _)
    refine ⟨j, hj1, hj2, ?_⟩
    rw [List.getD_eq_getElem _ _ hj2, hja]
    exact hfx
  · rintro ⟨j, hj1, hj2, hf⟩
    refine ⟨entries.getD j .notObject, ⟨j, lt_min hj1 hj2, ?_⟩, hf⟩
    exact (List.getD_eq_getElem _ _ hj2).symm

lemma okRec_take_drop (net : Ipv4Net) (entries : List SubnetEntry) :
    ∀ (n d : Nat), entries.length ≤ d + n →
      (OkRec net ((entries.take d).filterMap entryNet) (entries.drop d) ↔
        ∀ i, d ≤ i → i < entries.length → entryCond true net entries i) := by
  intro n
  induction n with
  | zero =>
    intro d hd
    rw [List.drop_eq_nil_of_le (by omega)]
    simp only [OkRec, true_iff]
    intro i hdi hil
    omega
  | succ n ih =>
    intro d hd
    by_cases hlt : d < entries.length
    · rw [List.drop_eq_getElem_cons hlt]
      have hgd : entries.getD d .notObject = entries[d] :=
        List.getD_eq_getElem _ _ hlt
      constructor
      · rintro ⟨s, c, a, sn, hobj, hc, hce, ha, hae, hname, hnet, hsub, hover, hrest⟩
        have htake : (entries.take (d + 1)).filterMap entryNet =
            (entries.take d).filterMap entryNet ++ [sn] := by
          rw [List.take_succ, List.filterMap_append, List.getElem?_eq_getElem hlt]
          simp [entryNet, hobj, hc, hnet]
        have hih := (ih (d + 1) (by omega)).mp (by rw [htake]; exact hrest)
        intro i hdi hil
        rcases Nat.eq_or_lt_of_le hdi with heq | hlt2
        · subst heq
          refine ⟨s, c, a, sn, by rw [hgd]; exact hobj, hc, hce, ha, hae,
            fun _ => hname, hnet, hsub, ?_⟩
          intro j hj sj hsj
          exact hover sj (mem_priorNets.mpr ⟨j, hj, lt_trans hj hlt, hsj⟩)
        · exact hih i hlt2 hil
      · intro hall
        obtain ⟨s, c, a, sn, hobj, hc, hce, ha, hae, hname, hnet, hsub, hover⟩ :=
          hall d le_rfl hlt
        have hobj' : entries[d] = SubnetEntry.obj s := by rw [← hgd]; exact hobj
        have htake : (entries.take (d + 1)).filterMap entryNet =
            (entries.take d).filterMap entryNet ++ [sn] := by
          rw [List.take_succ, List.filterMap_append, List.getElem?_eq_getElem hlt]
          simp [entryNet, hobj', hc, hnet]
        refine ⟨s, c, a, sn, hobj', hc, hce, ha, hae, hname rfl, hnet, hsub, ?_, ?_⟩
        · intro pr hpr
          obtain ⟨j, hjd, hjl, hf⟩ := mem_priorNets.mp hpr
          exact hover j hjd _ hf
        · rw [← htake]
          exact (ih (d + 1) (by omega)).mpr (fun i hi hil => hall i (by omega) hil)
    · rw [List.drop_eq_nil_of_le (by omega)]
      simp only [OkRec, true_iff]
      intro i hdi hil
      omega

lemma validateSubnets_forall2 (vc : String) (net : Ipv4Net) :
    ∀ (rest : List SubnetEntry) (i : Nat) (seen : List Ipv4Net) (ps : List SubnetSpec),
      validateSubnets vc net i seen rest = .ok ps →
      List.Forall₂ (fun e q => ∃ s, e = SubnetEntry.obj s ∧ s.cidr = some q.cidr ∧
        s.az = some q.az ∧
        q.name = (match s.name with | NameField.strVal v => some v | _ => none))
        rest ps := by
  intro rest
  induction rest with
  | nil =>
    intro i seen ps h
    simp only [validateSubnets] at h
    injection h with h'
    rw [← h']
    exact .nil
  | cons e rest ih =>
    intro i seen ps h
    cases e with
    | notObject => cases h
    | obj s =>
      rcases hc : s.cidr with _ | c
      · simp [validateSubnets, hc] at h
      · by_cases hce : c = ""
        · simp [validateSubnets, hc, hce] at h
        · rcases ha : s.az with _ | a
          · simp [validateSubnets, hc, hce, ha] at h
          · by_cases hae : a = ""
            · simp [validateSubnets, hc, hce, ha, hae] at h
            · by_cases hname : s.name = NameField.nonString
              · simp [validateSubnets, hc, hce, ha, hae, hname] at h
              · rcases hnet : ip_network c with _ | sn
                · simp [validateSubnets, hc, hce, ha, hae, hname, hnet] at h
                · by_cases hsub : subnet_of sn net = true
                  · rcases hfind : seen.find? (fun prior => overlaps sn prior) with _ | pr
                    · rcases hr : validateSubnets vc net (i + 1) (seen ++ [sn]) rest
                        with m | ps0
                      · simp [validateSubnets, hc, hce, ha, hae, hname, hnet, hsub,
                          hfind, hr] at h
                      · have hval : validateSubnets vc net i seen (.obj s :: rest) =
                            .ok (⟨c, a,
                              (match s.name with | NameField.strVal v => some v | _ => none)⟩ :: ps0) := by
                          simp [validateSubnets, hc, hce, ha, hae, hname, hnet, hsub,
                            hfind, hr]
                        rw [hval] at h
                        injection h with h'
                        rw [← h']
                        exact .cons ⟨s, rfl, hc, ha, rfl⟩ (ih (i + 1) (seen ++ [sn]) ps0 hr)
                    · simp [validateSubnets, hc, hce, ha, hae, hname, hnet, hsub,
                        hfind] at h
                  · simp [validateSubnets, hc, hce, ha, hae, hname, hnet, hsub] at h

/-- A payload meeting every condition the claim lists, but whose single
subnet carries a non-string `name` value. -/
def c7Bad : Payload :=
  { vpc := some { cidr := some "10.0.0.0/16" }
    subnets := some [SubnetEntry.obj ⟨some "10.0.1.0/24", some "zone-a", .nonString⟩] }

/-- C7 counterexample: the claim's success conditions say nothing about the
optional `name` field, yet the validator (api_handler.py line 115) rejects a
present non-string `name`; this payload satisfies every listed condition and
still fails validation. -/
theorem c7_counterexample :
    claimConditions false c7Bad ∧
    validate_request c7Bad = .error "Subnet at index 0 has invalid 'name'" := by
  constructor
  · refine ⟨{ cidr := some "10.0.0.0/16" }, "10.0.0.0/16", ⟨167772160, 16⟩,
      [SubnetEntry.obj ⟨some "10.0.1.0/24", some "zone-a", .nonString⟩],
      rfl, rfl, by rfl, rfl, by decide, by decide, ?_⟩
    intro i hi
    have hi0 : i = 0 := by simp at hi; omega
    subst hi0
    refine ⟨⟨some "10.0.1.0/24", some "zone-a", .nonString⟩,
      "10.0.1.0/24", "zone-a", ⟨167772416, 24⟩, rfl, rfl, by decide, rfl, by decide,
      ?_, by rfl, by rfl, ?_⟩
    · intro hfalse
      exact absurd hfalse (by decide)
    · intro j hj sj hsj
      exact absurd hj (Nat.not_lt_zero j)
  · rfl

/-- C7 (amended): validation succeeds exactly on the payloads that satisfy
the claim's conditions strengthened by the condition the code also checks —
a present `name` must be a string (absent is allowed) — and on success the
returned list matches the `subnets` array entrywise in input order, each
output record carrying its entry's `cidr`, `az` and (string or absent)
`name`. -/
theorem c7_validator_characterisation (p : Payload) :
    (claimConditions true p ↔ ∃ r, validate_request p = .ok r) ∧
    (∀ vc entries parsed, p.subnets = some entries →
      validate_request p = .ok (vc, parsed) →
      List.Forall₂ (fun e q => ∃ s, e = SubnetEntry.obj s ∧ s.cidr = some q.cidr ∧
        s.az = some q.az ∧
        q.name = (match s.name with | NameField.strVal v => some v | _ => none))
        entries parsed) := by
  constructor
  · constructor
    · rintro ⟨v, c, net, entries, hv, hvc, hnet, hsub, hne, hlen, hcond⟩
      have hce : c ≠ "" := by
        rintro rfl
        rw [show ip_network "" = none from rfl] at hnet
        cases hnet
      have hemp : entries.isEmpty = false := by
        cases entries with
        | nil => exact absurd rfl hne
        | cons x xs => rfl
      have hOk : OkRec net [] entries := by
        have h2 := (okRec_take_drop net entries entries.length 0 (by omega)).mpr
          (fun i _ hil => hcond i hil)
        simpa using h2
      obtain ⟨ps, hps⟩ := (validateSubnets_ok_iff c net entries 0 []).mpr hOk
      refine ⟨(c, ps), ?_⟩
      have hgt : ¬ entries.length > MAX_SUBNETS := by omega
      simp [validate_request, hv, hvc, hce, hnet, hsub, hemp, hgt, hps]
    · rintro ⟨⟨vc, parsed⟩, hok⟩
      rcases hv : p.vpc with _ | v
      · simp [validate_request, hv] at hok
      rcases hvc : v.cidr with _ | c
      · simp [validate_request, hv, hvc] at hok
      by_cases hce : c = ""
      · simp [validate_request, hv, hvc, hce] at hok
      rcases hnet : ip_network c with _ | net
      · simp [validate_request, hv, hvc, hce, hnet] at hok
      rcases hsub : p.subnets with _ | entries
      · simp [validate_request, hv, hvc, hce, hnet, hsub] at hok
      rcases hemp : entries.isEmpty with _ | _
      · rcases hlen : decide (entries.length > MAX_SUBNETS) with _ | _
        · rcases hps : validateSubnets c net 0 [] entries with m | ps
          · simp [validate_request, hv, hvc, hce, hnet, hsub, hemp, hps,
              of_decide_eq_false hlen] at hok
          · have hOk : OkRec net [] entries :=
              (validateSubnets_ok_iff c net entries 0 []).mp ⟨ps, hps⟩
            have hcond := (okRec_take_drop net entries entries.length 0
              (by omega)).mp (by simpa using hOk)
            have hne9 : entries ≠ [] := by
              intro hnil
              rw [hnil] at hemp
              simp at hemp
            have hlen9 : entries.length ≤ MAX_SUBNETS := by
              have := of_decide_eq_false hlen
              omega
            exact ⟨v, c, net, entries, hv, hvc, hnet, hsub, hne9, hlen9,
              fun i hil => hcond i (Nat.zero_le i) hil⟩
        · simp [validate_request, hv, hvc, hce, hnet, hsub, hemp,
            of_decide_eq_true hlen] at hok
      · simp [validate_request, hv, hvc, hce, hnet, hsub, hemp] at hok
  · intro vc entries parsed hsub hok
    rcases hv : p.vpc with _ | v
    · simp [validate_request, hv] at hok
    rcases hvc : v.cidr with _ | c
    · simp [validate_request, hv, hvc] at hok
    by_cases hce : c = ""
    · simp [validate_request, hv, hvc, hce] at hok
    rcases hnet : ip_network c with _ | net
    · simp [validate_request, hv, hvc, hce, hnet] at hok
    rcases hemp : entries.isEmpty with _ | _
    · rcases hlen : decide (entries.length > MAX_SUBNETS) with _ | _
      · rcases hps : validateSubnets c net 0 [] entries with m | ps
        · simp [validate_request, hv, hvc, hce, hnet, hsub, hemp, hps,
            of_decide_eq_false hlen] at hok
        · have hpp : parsed = ps := by
            simp [validate_request, hv, hvc, hce, hnet, hsub, hemp, hps,
              of_decide_eq_false hlen] at hok
            exact hok.2.symm
          rw [hpp]
          exact validateSubnets_forall2 c net entries 0 [] ps hps
      · simp [validate_request, hv, hvc, hce, hnet, hsub, hemp,
          of_decide_eq_true hlen] at hok
    · simp [validate_request, hv, hvc, hce, hnet, hsub, hemp] at hok

/-- C7 witness: a concrete valid single-subnet payload — the amended
conditions hold and the validator's output aligns with the input entry. -/
theorem c7_validator_characterisation_witness :
    claimConditions true demoPayload ∧
    List.Forall₂ (fun e q => ∃ s, e = SubnetEntry.obj s ∧ s.cidr = some q.cidr ∧
      s.az = some q.az ∧
      q.name = (match s.name with | NameField.strVal v => some v | _ => none))
      [SubnetEntry.obj { cidr := some "10.0.1.0/24", az := some "zone-a" }]
      demoParsed :=
  ⟨(c7_validator_characterisation demoPayload).1.mpr ⟨("10.0.0.0/16", demoParsed), by rfl⟩,
    (c7_validator_characterisation demoPayload).2 "10.0.0.0/16"
      [SubnetEntry.obj { cidr := some "10.0.1.0/24", az := some "zone-a" }]
      demoParsed rfl (by rfl)⟩

end VpcDemo
